import Mathlib

/-!
Shallow embedding of the Health-App serverless API (`api/health.js`, here
`src/unnamed/part_000`) together with the relational schema in
`src/supabase.sql`, and proofs of the frozen claims about it.

Modelling conventions:
* Calendar dates are modelled as integers (day indices).  The code stores
  ISO `YYYY-MM-DD` strings and compares them with SQL `date` semantics,
  which is chronological order, so an integer day index is order-faithful.
  `today` (the handler's `new Date()` date) is passed as a parameter.
* JS numbers are modelled as exact rationals (`ℚ`); the claims at issue
  never depend on binary floating-point rounding.
* A JSON/query-string value that feeds `parseInt`/`parseFloat` is modelled
  by `JsVal`; string fields that the code only tests for truthiness are
  modelled as `Option String` where `none` is an absent field, and the
  JS falsiness of the empty string is handled explicitly (`jsOrString`).
* Supabase/Postgres uuid generation (`gen_random_uuid()`) is modelled by a
  fresh-counter `nextId : ℕ` on the database state; every id already in a
  table is below `nextId`.
* Each table is a list of rows; `select ... .eq ... .maybeSingle()` is
  `List.find?`; the schema's `unique` constraints are the explicit
  well-formedness predicates below.
-/

namespace HealthApp

/-- A JavaScript value in a position the handler feeds to `parseInt` /
`parseFloat` (body or query-string field). `undef` is an absent field. -/
inductive JsVal where
  | undef : JsVal
  | jnull : JsVal
  | num : ℚ → JsVal
  | str : String → JsVal
deriving DecidableEq

/-- Numeric value of a list of decimal digit characters. -/
def digitsToNat (ds : List Char) : ℕ :=
  ds.foldl (fun a c => a * 10 + (c.toNat - 48)) 0

/-- The leading run of decimal digits. -/
def takeDigits (cs : List Char) : List Char :=
  cs.takeWhile (fun c => c.isDigit)

/-- JS `parseInt(s, 10)` on a string: skip leading spaces, optional sign,
then the longest prefix of decimal digits; `NaN` (here `none`) if that
prefix is empty.  (Exotic whitespace classes are not modelled.) -/
def parseIntStr (s : String) : Option ℤ :=
  let cs := s.data.dropWhile (fun c => c = ' ')
  match cs with
  | '-' :: rest =>
      if (takeDigits rest).isEmpty then none
      else some (-(digitsToNat (takeDigits rest) : ℤ))
  | '+' :: rest =>
      if (takeDigits rest).isEmpty then none
      else some (digitsToNat (takeDigits rest) : ℤ)
  | _ =>
      if (takeDigits cs).isEmpty then none
      else some (digitsToNat (takeDigits cs) : ℤ)

/-- JS `parseFloat(s)`: skip leading spaces, optional sign, digits,
optionally a point and more digits; `NaN` (`none`) when no digit was
read.  (Exponent notation is not modelled.) -/
def parseFloatStr (s : String) : Option ℚ :=
  let cs := s.data.dropWhile (fun c => c = ' ')
  let signed : ℚ → ℚ :=
    match cs with
    | '-' :: _ => fun q => -q
    | _ => fun q => q
  let cs2 :=
    match cs with
    | '-' :: rest => rest
    | '+' :: rest => rest
    | _ => cs
  let ip := takeDigits cs2
  let rest := cs2.drop ip.length
  let fp :=
    match rest with
    | '.' :: r => takeDigits r
    | _ => []
  if ip.isEmpty && fp.isEmpty then none
  else some (signed ((digitsToNat ip : ℚ) + (digitsToNat fp : ℚ) / (10 : ℚ) ^ fp.length))

/-- Truncation toward zero, which is what `parseInt(String(q))` performs on
a (plain-decimal) JS number. -/
def truncRat (q : ℚ) : ℤ :=
  if 0 ≤ q then ⌊q⌋ else ⌈q⌉

/-- `function toInt(v) { const n = parseInt(v, 10); return Number.isFinite(n) ? n : null; }`
`parseInt` stringifies its argument first: `undefined`/`null` stringify to
non-numeric text, hence `NaN`, hence `null`. -/
def toInt : JsVal → Option ℤ
  | JsVal.undef => none
  | JsVal.jnull => none
  | JsVal.num q => some (truncRat q)
  | JsVal.str s => parseIntStr s

/-- `function toFloat(v) { const n = parseFloat(v); return Number.isFinite(n) ? n : null; }` -/
def toFloat : JsVal → Option ℚ
  | JsVal.undef => none
  | JsVal.jnull => none
  | JsVal.num q => some q
  | JsVal.str s => parseFloatStr s

/-- JS `x || d` where `x` is the `Option ℤ` result of `toInt` — `null` and
`0` are falsy. -/
def jsOrInt (o : Option ℤ) (d : ℤ) : ℤ :=
  match o with
  | none => d
  | some n => if n = 0 then d else n

/-- JS `x || d` where `x` is the `Option ℚ` result of `toFloat`. -/
def jsOrRat (o : Option ℚ) (d : ℚ) : ℚ :=
  match o with
  | none => d
  | some q => if q = 0 then d else q

/-- JS `s || d` on an optional string field — `undefined` and `""` are
falsy. -/
def jsOrString (o : Option String) (d : String) : String :=
  match o with
  | none => d
  | some s => if s = "" then d else s

/-- A row of `public.profiles` (`created_at` is never read by the handler
and is not modelled). -/
structure Profile where
  id : String
  email : Option String
  name : Option String
  role : Option String
deriving DecidableEq

/-- A row of `public.patient_profiles`. -/
structure PatientDetail where
  user_id : String
  age : Option ℤ
  weight : Option ℚ
  height : Option ℚ
  gender : Option String
  nationality : Option String
  medical_history : Option String
  current_medications : Option String
  allergies : Option String
  family_history : Option String
  lifestyle_factors : Option String
deriving DecidableEq

/-- A row of `public.doctor_profiles`. -/
structure DoctorDetail where
  user_id : String
  gender : Option String
  age : Option ℤ
  nationality : Option String
  level_of_education : Option String
  medical_school : Option String
  year_of_education : Option ℤ
  medical_license_number : Option String
  license_region : Option String
  speciality : Option String
  years_of_experience : Option ℤ
  current_workplace : Option String
  languages_spoken : Option String
deriving DecidableEq

/-- A row of `public.habits`. -/
structure HabitRow where
  id : ℕ
  user_id : String
  date : ℤ
  steps : ℤ
  water_cups : ℤ
  sleep_hours : ℚ
deriving DecidableEq

/-- A row of `public.vitals`. -/
structure VitalRow where
  id : ℕ
  user_id : String
  date : ℤ
  blood_glucose : Option ℤ
  blood_pressure_sys : Option ℤ
  blood_pressure_dia : Option ℤ
  heart_rate : Option ℤ
  body_temperature : Option ℚ
deriving DecidableEq

/-- A row of `public.doctor_patient_links` (`created_at` not modelled). -/
structure LinkRow where
  id : ℕ
  patient_id : String
  doctor_id : String
  patient_selected : Bool
  doctor_selected : Bool
deriving DecidableEq

/-- The database state: the five tables of `supabase.sql`, plus the
fresh-uuid counter. -/
structure DB where
  profiles : List Profile
  patient_profiles : List PatientDetail
  doctor_profiles : List DoctorDetail
  habits : List HabitRow
  vitals : List VitalRow
  doctor_patient_links : List LinkRow
  nextId : ℕ
deriving DecidableEq

/-- `async function getProfile(userId)`: `select * from profiles where id =
userId` with `.single()`, which yields `null` when no row matches (no two
rows can match: `id` is the primary key). -/
def getProfile (db : DB) (userId : String) : Option Profile :=
  db.profiles.find? (fun p => p.id == userId)

/-- `profile?.role` of the caller — `none` both when the profile row is
missing and when its `role` column is null. -/
def roleOf (db : DB) (userId : String) : Option String :=
  (getProfile db userId).bind (fun p => p.role)

/-- `async function canDoctorView(doctorId, patientId)`: look up the
`doctor_patient_links` row for the pair (`maybeSingle`; at most one by the
`unique(patient_id, doctor_id)` constraint) and require both flags. -/
def canDoctorView (db : DB) (doctorId patientId : String) : Bool :=
  match db.doctor_patient_links.find?
      (fun l => l.doctor_id == doctorId && l.patient_id == patientId) with
  | none => false
  | some l => l.patient_selected && l.doctor_selected

/-- `async function getOrCreateLink(patientId, doctorId)`: return the
existing row for the pair, or insert one with both flags false.  Returns
the row the subsequent `.eq('id', link.id)` update will target, plus the
new database state. -/
def getOrCreateLink (db : DB) (patientId doctorId : String) : LinkRow × DB :=
  match db.doctor_patient_links.find?
      (fun l => l.patient_id == patientId && l.doctor_id == doctorId) with
  | some l => (l, db)
  | none =>
      let row : LinkRow :=
        { id := db.nextId, patient_id := patientId, doctor_id := doctorId,
          patient_selected := false, doctor_selected := false }
      (row, { db with doctor_patient_links := row :: db.doctor_patient_links,
                      nextId := db.nextId + 1 })

/-- `function daysAgoISO(days)`: the date `days` days before today. -/
def daysAgoISO (today : ℤ) (days : ℤ) : ℤ := today - days

/-- The error responses the modelled actions can produce.  `forbidden` is
the 403 `'Forbidden'` (wrong role) and `noPermission` the 403
`'No permission'` (no mutual link); `badRequest` is 400 and `notFound`
404. -/
inductive ApiErr where
  | badRequest : ApiErr
  | forbidden : ApiErr
  | noPermission : ApiErr
  | notFound : ApiErr
deriving DecidableEq

/-- Whether a handler result is one of the two 403 authorization
responses. -/
def isAuthErr {α : Type} : Except ApiErr α → Bool
  | Except.error ApiErr.forbidden => true
  | Except.error ApiErr.noPermission => true
  | _ => false

/-- The role-specific payload attached to a `profile.get` response. -/
inductive RoleDetail where
  | patient : Option PatientDetail → RoleDetail
  | doctor : Option DoctorDetail → RoleDetail
  | bare : RoleDetail
deriving DecidableEq

/-- A successful `profile.get` response body. -/
structure ProfileOut where
  profile : Profile
  detail : RoleDetail
deriving DecidableEq

/-- The tail of the `profile.get` case: load the target's profile row
(`maybeSingle`; 404 when absent) and attach its role detail row
(`p || null` / `d || null`). -/
def loadProfile (db : DB) (uid : String) : Except ApiErr ProfileOut :=
  match db.profiles.find? (fun p => p.id == uid) with
  | none => Except.error ApiErr.notFound
  | some prof =>
      if prof.role = some "patient" then
        Except.ok ⟨prof, RoleDetail.patient
          (db.patient_profiles.find? (fun p => p.user_id == uid))⟩
      else if prof.role = some "doctor" then
        Except.ok ⟨prof, RoleDetail.doctor
          (db.doctor_profiles.find? (fun d => d.user_id == uid))⟩
      else Except.ok ⟨prof, RoleDetail.bare⟩

/-- `case 'profile.get'`: require `user_id` (`!forUserId` → 400); when the
target differs from the caller, require the caller's role to be `doctor`
and `canDoctorView` for the pair; then load the target profile. -/
def profileGet (db : DB) (caller : String) (qUserId : Option String) :
    Except ApiErr ProfileOut :=
  match qUserId with
  | none => Except.error ApiErr.badRequest
  | some forUserId =>
      if forUserId = "" then Except.error ApiErr.badRequest
      else if forUserId ≠ caller then
        if roleOf db caller ≠ some "doctor" then Except.error ApiErr.forbidden
        else if canDoctorView db caller forUserId then loadProfile db forUserId
        else Except.error ApiErr.noPermission
      else loadProfile db forUserId

/-- The query-string inputs of `habits.fetch` / `vitals.fetch`:
`qp.rangeDays` (a string when present, fed to `toInt`) and `qp.user_id`. -/
structure FetchQuery where
  user_id : Option String
  rangeDays : JsVal
deriving DecidableEq

/-- The columns `habits.fetch` selects. -/
structure HabitOut where
  date : ℤ
  steps : ℤ
  water_cups : ℤ
  sleep_hours : ℚ
deriving DecidableEq

/-- The columns `vitals.fetch` selects. -/
structure VitalOut where
  date : ℤ
  blood_glucose : Option ℤ
  blood_pressure_sys : Option ℤ
  blood_pressure_dia : Option ℤ
  heart_rate : Option ℤ
  body_temperature : Option ℚ
deriving DecidableEq

/-- Column selection of `habits.fetch`. -/
def projHabit (h : HabitRow) : HabitOut :=
  ⟨h.date, h.steps, h.water_cups, h.sleep_hours⟩

/-- Column selection of `vitals.fetch`. -/
def projVital (v : VitalRow) : VitalOut :=
  ⟨v.date, v.blood_glucose, v.blood_pressure_sys, v.blood_pressure_dia,
   v.heart_rate, v.body_temperature⟩

/-- Descending-by-date order used to model
`.order('date', { ascending: false })`. -/
def dateDescH : HabitOut → HabitOut → Prop := fun a b => b.date ≤ a.date

/-- Descending-by-date order for vitals. -/
def dateDescV : VitalOut → VitalOut → Prop := fun a b => b.date ≤ a.date

instance : DecidableRel dateDescH :=
  fun a b => inferInstanceAs (Decidable (b.date ≤ a.date))

instance : DecidableRel dateDescV :=
  fun a b => inferInstanceAs (Decidable (b.date ≤ a.date))

instance : IsTotal HabitOut dateDescH :=
  ⟨fun a b => (le_total b.date a.date).imp id id⟩

instance : IsTrans HabitOut dateDescH :=
  ⟨fun _ _ _ hab hbc => le_trans hbc hab⟩

instance : IsTotal VitalOut dateDescV :=
  ⟨fun a b => (le_total b.date a.date).imp id id⟩

instance : IsTrans VitalOut dateDescV :=
  ⟨fun _ _ _ hab hbc => le_trans hbc hab⟩

/-- The `habits` query of `habits.fetch`: rows of `forUserId` with
`date >= since`, ordered by date descending, projected to the selected
columns. -/
def habitsQuery (db : DB) (forUserId : String) (since : ℤ) : List HabitOut :=
  List.insertionSort dateDescH
    ((db.habits.filter (fun h => h.user_id == forUserId && since ≤ h.date)).map
      projHabit)

/-- The `vitals` query of `vitals.fetch`. -/
def vitalsQuery (db : DB) (forUserId : String) (since : ℤ) : List VitalOut :=
  List.insertionSort dateDescV
    ((db.vitals.filter (fun v => v.user_id == forUserId && since ≤ v.date)).map
      projVital)

/-- `case 'habits.fetch'`: `rangeDays = toInt(qp.rangeDays) || 7`,
`forUserId = qp.user_id || user.id`; a cross-account target requires
role `doctor` plus `canDoctorView`; then return the ranged query. -/
def habitsFetch (db : DB) (caller : String) (today : ℤ) (q : FetchQuery) :
    Except ApiErr (List HabitOut) :=
  let rangeDays := jsOrInt (toInt q.rangeDays) 7
  let forUserId := jsOrString q.user_id caller
  if forUserId ≠ caller then
    if roleOf db caller ≠ some "doctor" then Except.error ApiErr.forbidden
    else if canDoctorView db caller forUserId then
      Except.ok (habitsQuery db forUserId (daysAgoISO today rangeDays))
    else Except.error ApiErr.noPermission
  else Except.ok (habitsQuery db forUserId (daysAgoISO today rangeDays))

/-- `case 'vitals.fetch'`: identical gate, over the `vitals` table. -/
def vitalsFetch (db : DB) (caller : String) (today : ℤ) (q : FetchQuery) :
    Except ApiErr (List VitalOut) :=
  let rangeDays := jsOrInt (toInt q.rangeDays) 7
  let forUserId := jsOrString q.user_id caller
  if forUserId ≠ caller then
    if roleOf db caller ≠ some "doctor" then Except.error ApiErr.forbidden
    else if canDoctorView db caller forUserId then
      Except.ok (vitalsQuery db forUserId (daysAgoISO today rangeDays))
    else Except.error ApiErr.noPermission
  else Except.ok (vitalsQuery db forUserId (daysAgoISO today rangeDays))

/-- The JSON body of `habits.upsert`.  `date` is `none` when the `date`
field is absent/falsy (the `body.date || today` default applies). -/
structure HabitBody where
  date : Option ℤ
  steps : JsVal
  water_cups : JsVal
  sleep_hours : JsVal
deriving DecidableEq

/-- The JSON body of `vitals.upsert`. -/
structure VitalBody where
  date : Option ℤ
  blood_glucose : JsVal
  blood_pressure_sys : JsVal
  blood_pressure_dia : JsVal
  heart_rate : JsVal
  body_temperature : JsVal
deriving DecidableEq

/-- `case 'habits.upsert'`: resolve the date (`body.date || today`), build
the row with `toInt(...) || 0` / `toFloat(...) || 0` coercions, then
manually upsert by `(user_id, date)`: update the found row by id, else
insert a fresh row. -/
def habitsUpsert (db : DB) (caller : String) (today : ℤ) (b : HabitBody) : DB :=
  let date := b.date.getD today
  let existing := db.habits.find? (fun h => h.user_id == caller && h.date == date)
  match existing with
  | some e =>
      { db with habits := db.habits.map (fun h =>
          if h.id == e.id then
            { h with user_id := caller, date := date,
                     steps := jsOrInt (toInt b.steps) 0,
                     water_cups := jsOrInt (toInt b.water_cups) 0,
                     sleep_hours := jsOrRat (toFloat b.sleep_hours) 0 }
          else h) }
  | none =>
      let row : HabitRow :=
        { id := db.nextId, user_id := caller, date := date,
          steps := jsOrInt (toInt b.steps) 0,
          water_cups := jsOrInt (toInt b.water_cups) 0,
          sleep_hours := jsOrRat (toFloat b.sleep_hours) 0 }
      { db with habits := row :: db.habits, nextId := db.nextId + 1 }

/-- `case 'vitals.upsert'`: same manual upsert; the five vital columns take
the bare `toInt`/`toFloat` results, so an unparsable field is stored as
null. -/
def vitalsUpsert (db : DB) (caller : String) (today : ℤ) (b : VitalBody) : DB :=
  let date := b.date.getD today
  let existing := db.vitals.find? (fun v => v.user_id == caller && v.date == date)
  match existing with
  | some e =>
      { db with vitals := db.vitals.map (fun v =>
          if v.id == e.id then
            { v with user_id := caller, date := date,
                     blood_glucose := toInt b.blood_glucose,
                     blood_pressure_sys := toInt b.blood_pressure_sys,
                     blood_pressure_dia := toInt b.blood_pressure_dia,
                     heart_rate := toInt b.heart_rate,
                     body_temperature := toFloat b.body_temperature }
          else v) }
  | none =>
      let row : VitalRow :=
        { id := db.nextId, user_id := caller, date := date,
          blood_glucose := toInt b.blood_glucose,
          blood_pressure_sys := toInt b.blood_pressure_sys,
          blood_pressure_dia := toInt b.blood_pressure_dia,
          heart_rate := toInt b.heart_rate,
          body_temperature := toFloat b.body_temperature }
      { db with vitals := row :: db.vitals, nextId := db.nextId + 1 }

/-- The `payload.patient` sub-object of `profile.upsert`. -/
structure PatientBody where
  age : JsVal
  weight : JsVal
  height : JsVal
  gender : Option String
  nationality : Option String
  medical_history : Option String
  current_medications : Option String
  allergies : Option String
  family_history : Option String
  lifestyle_factors : Option String
deriving DecidableEq

/-- The `payload.doctor` sub-object of `profile.upsert`. -/
structure DoctorBody where
  gender : Option String
  age : JsVal
  nationality : Option String
  level_of_education : Option String
  medical_school : Option String
  year_of_education : JsVal
  medical_license_number : Option String
  license_region : Option String
  speciality : Option String
  years_of_experience : JsVal
  current_workplace : Option String
  languages_spoken : Option String
deriving DecidableEq

/-- `payload.patient || {}`: the empty sub-object. -/
def emptyPatientBody : PatientBody :=
  ⟨JsVal.undef, JsVal.undef, JsVal.undef, none, none, none, none, none, none, none⟩

/-- `payload.doctor || {}`: the empty sub-object. -/
def emptyDoctorBody : DoctorBody :=
  ⟨none, JsVal.undef, none, none, none, JsVal.undef, none, none, none,
   JsVal.undef, none, none⟩

/-- The JSON body of `profile.upsert`. -/
structure ProfileBody where
  name : Option String
  role : Option String
  patient : Option PatientBody
  doctor : Option DoctorBody
deriving DecidableEq

/-- JS `x || null` on an optional string: the empty string collapses to
null. -/
def strOrNull (o : Option String) : Option String :=
  match o with
  | some s => if s = "" then none else some s
  | none => none

/-- `upsert(..., { onConflict: 'id' })` on `profiles`: replace the
conflicting row's provided columns, else insert. -/
def upsertProfileRow (db : DB) (row : Profile) : DB :=
  if db.profiles.any (fun p => p.id == row.id) then
    { db with profiles := db.profiles.map (fun p => if p.id == row.id then row else p) }
  else { db with profiles := row :: db.profiles }

/-- `upsert(..., { onConflict: 'user_id' })` on `patient_profiles`. -/
def upsertPatientRow (db : DB) (row : PatientDetail) : DB :=
  if db.patient_profiles.any (fun p => p.user_id == row.user_id) then
    { db with patient_profiles := db.patient_profiles.map (fun p =>
        if p.user_id == row.user_id then row else p) }
  else { db with patient_profiles := row :: db.patient_profiles }

/-- `upsert(..., { onConflict: 'user_id' })` on `doctor_profiles`. -/
def upsertDoctorRow (db : DB) (row : DoctorDetail) : DB :=
  if db.doctor_profiles.any (fun d => d.user_id == row.user_id) then
    { db with doctor_profiles := db.doctor_profiles.map (fun d =>
        if d.user_id == row.user_id then row else d) }
  else { db with doctor_profiles := row :: db.doctor_profiles }

/-- `async function ensureProfile(userId, email, payload)`: upsert the base
profile, then the role-specific detail row built with `toInt`/`toFloat`
and `x || null` coercions. -/
def ensureProfile (db : DB) (userId : String) (email : Option String)
    (payload : ProfileBody) : DB :=
  let db1 := upsertProfileRow db
    { id := userId, email := email, name := payload.name, role := payload.role }
  if payload.role = some "patient" then
    let p := payload.patient.getD emptyPatientBody
    upsertPatientRow db1
      { user_id := userId, age := toInt p.age, weight := toFloat p.weight,
        height := toFloat p.height, gender := strOrNull p.gender,
        nationality := strOrNull p.nationality,
        medical_history := strOrNull p.medical_history,
        current_medications := strOrNull p.current_medications,
        allergies := strOrNull p.allergies,
        family_history := strOrNull p.family_history,
        lifestyle_factors := strOrNull p.lifestyle_factors }
  else if payload.role = some "doctor" then
    let d := payload.doctor.getD emptyDoctorBody
    upsertDoctorRow db1
      { user_id := userId, gender := strOrNull d.gender, age := toInt d.age,
        nationality := strOrNull d.nationality,
        level_of_education := strOrNull d.level_of_education,
        medical_school := strOrNull d.medical_school,
        year_of_education := toInt d.year_of_education,
        medical_license_number := strOrNull d.medical_license_number,
        license_region := strOrNull d.license_region,
        speciality := strOrNull d.speciality,
        years_of_experience := toInt d.years_of_experience,
        current_workplace := strOrNull d.current_workplace,
        languages_spoken := strOrNull d.languages_spoken }
  else db1

/-- The JSON body of `link.select`: `doctor_id` when the caller is a
patient, `patient_email` when the caller is a doctor. -/
structure LinkBody where
  doctor_id : Option String
  patient_email : Option String
deriving DecidableEq

/-- `.update({ patient_selected: true }).eq('id', linkId)`. -/
def setPatientSelected (db : DB) (linkId : ℕ) : DB :=
  { db with doctor_patient_links := db.doctor_patient_links.map (fun l =>
      if l.id == linkId then { l with patient_selected := true } else l) }

/-- `.update({ doctor_selected: true }).eq('id', linkId)`. -/
def setDoctorSelected (db : DB) (linkId : ℕ) : DB :=
  { db with doctor_patient_links := db.doctor_patient_links.map (fun l =>
      if l.id == linkId then { l with doctor_selected := true } else l) }

/-- `case 'link.select'`: a patient selects a doctor by id (get-or-create
the link, then set `patient_selected`); a doctor selects a patient by
email (resolve a `role = 'patient'` profile by email, then symmetric with
`doctor_selected`).  Every error branch (400/404/403) leaves the database
unchanged. -/
def linkSelect (db : DB) (caller : String) (b : LinkBody) : DB :=
  match getProfile db caller with
  | none => db
  | some myProfile =>
      if myProfile.role = some "patient" then
        match b.doctor_id with
        | none => db
        | some doctorId =>
            if doctorId = "" then db
            else
              let lk := getOrCreateLink db caller doctorId
              setPatientSelected lk.2 lk.1.id
      else if myProfile.role = some "doctor" then
        match b.patient_email with
        | none => db
        | some patientEmail =>
            if patientEmail = "" then db
            else
              match db.profiles.find? (fun p =>
                  p.email == some patientEmail && p.role == some "patient") with
              | none => db
              | some patient =>
                  let lk := getOrCreateLink db patient.id caller
                  setDoctorSelected lk.2 lk.1.id
      else db

/-- The database-mutating requests of the handler, each carrying the
authenticated caller's data and (for the upserts) the request-time current
date.  The remaining actions (`me`, `profile.get`, `habits.fetch`,
`vitals.fetch`, `doctors.list`, `link.list`) only run `select` queries and
never write, so they are identities on the database state. -/
inductive Action where
  | profileUp : String → Option String → ProfileBody → Action
  | habitsUp : String → ℤ → HabitBody → Action
  | vitalsUp : String → ℤ → VitalBody → Action
  | linkSel : String → LinkBody → Action
  | readOnly : Action
deriving DecidableEq

/-- The state transition of one handled request. -/
def step (db : DB) : Action → DB
  | Action.profileUp uid email b => ensureProfile db uid email b
  | Action.habitsUp uid today b => habitsUpsert db uid today b
  | Action.vitalsUp uid today b => vitalsUpsert db uid today b
  | Action.linkSel uid b => linkSelect db uid b
  | Action.readOnly => db

/-- A sequence of handled requests. -/
def run (db : DB) (as : List Action) : DB :=
  as.foldl step db

/-! ## Schema constraints as state well-formedness -/

/-- A `ConsentLink` row for `(patientId, doctorId)` with both consent
flags set — the spec's condition for cross-account visibility. -/
def mutualLinkExists (db : DB) (patientId doctorId : String) : Prop :=
  ∃ l ∈ db.doctor_patient_links,
    l.patient_id = patientId ∧ l.doctor_id = doctorId ∧
    l.patient_selected = true ∧ l.doctor_selected = true

instance (db : DB) (p d : String) : Decidable (mutualLinkExists db p d) :=
  List.decidableBEx _ db.doctor_patient_links

/-- The `unique(patient_id, doctor_id)` constraint of
`doctor_patient_links`. -/
def linksPairUnique (db : DB) : Prop :=
  db.doctor_patient_links.Pairwise
    (fun a b => ¬(a.patient_id = b.patient_id ∧ a.doctor_id = b.doctor_id))

/-- Full well-formedness of `doctor_patient_links`: distinct primary keys,
the pair uniqueness constraint, and freshness of `nextId`. -/
def linksWF (db : DB) : Prop :=
  db.doctor_patient_links.Pairwise
    (fun a b => a.id ≠ b.id ∧ ¬(a.patient_id = b.patient_id ∧ a.doctor_id = b.doctor_id))
  ∧ ∀ l ∈ db.doctor_patient_links, l.id < db.nextId

/-- Well-formedness of `habits`: distinct primary keys, the
`unique(user_id, date)` constraint, and freshness of `nextId`. -/
def habitsWF (db : DB) : Prop :=
  db.habits.Pairwise
    (fun a b => a.id ≠ b.id ∧ ¬(a.user_id = b.user_id ∧ a.date = b.date))
  ∧ ∀ h ∈ db.habits, h.id < db.nextId

/-- Well-formedness of `vitals`, symmetric to `habitsWF`. -/
def vitalsWF (db : DB) : Prop :=
  db.vitals.Pairwise
    (fun a b => a.id ≠ b.id ∧ ¬(a.user_id = b.user_id ∧ a.date = b.date))
  ∧ ∀ v ∈ db.vitals, v.id < db.nextId

instance (db : DB) : Decidable (linksPairUnique db) := by
  unfold linksPairUnique; infer_instance

instance (db : DB) : Decidable (linksWF db) := by
  unfold linksWF; infer_instance

instance (db : DB) : Decidable (habitsWF db) := by
  unfold habitsWF; infer_instance

instance (db : DB) : Decidable (vitalsWF db) := by
  unfold vitalsWF; infer_instance

/-- `flagLe l l2`: `l2` is the same link row as `l` (same id and pair)
with consent flags at least as set — the per-row consent monotonicity
property. -/
def flagLe (l l2 : LinkRow) : Prop :=
  l2.id = l.id ∧ l2.patient_id = l.patient_id ∧ l2.doctor_id = l.doctor_id ∧
  (l.patient_selected = true → l2.patient_selected = true) ∧
  (l.doctor_selected = true → l2.doctor_selected = true)

instance (l l2 : LinkRow) : Decidable (flagLe l l2) := by
  unfold flagLe; infer_instance

/-! ## Concrete fixtures used by witnesses and counterexamples -/

/-- A patient account. -/
def patP : Profile := ⟨"p", some "p@example.com", some "Pat", some "patient"⟩

/-- A doctor account. -/
def docD : Profile := ⟨"d", some "d@example.com", some "Doc", some "doctor"⟩

/-- A mutually-consented link between `patP` and `docD`. -/
def linkPD : LinkRow := ⟨0, "p", "d", true, true⟩

/-- A one-sided link: only the patient has consented. -/
def linkPD1 : LinkRow := ⟨0, "p", "d", true, false⟩

/-- A habit row of `patP`. -/
def habP : HabitRow := ⟨1, "p", 100, 5000, 6, 15 / 2⟩

/-- Fixture state: the two accounts, the mutual link, one habit row. -/
def dbMutual : DB := ⟨[patP, docD], [], [], [habP], [], [linkPD], 2⟩

/-- Fixture state: two accounts, one-sided consent. -/
def dbOneSided : DB := ⟨[patP, docD], [], [], [habP], [], [linkPD1], 2⟩

/-- Fixture state: two accounts, no link at all, empty record stores. -/
def dbNoLink : DB := ⟨[patP, docD], [], [], [], [], [], 2⟩

/-- A habit row of `patP` dated in the future (day 107, reachable through
`habits.upsert`, whose `body.date` is caller-controlled). -/
def habFuture : HabitRow := ⟨1, "p", 107, 42, 1, 8⟩

/-- Fixture state holding only the future-dated habit row. -/
def dbFuture : DB := ⟨[patP, docD], [], [], [habFuture], [], [], 2⟩

/-- A fully-populated vital row of `patP` for day 100. -/
def vitP : VitalRow := ⟨1, "p", 100, some 90, some 120, some 80, some 60, some 37⟩

/-- Fixture state holding one vital row. -/
def dbVit : DB := ⟨[patP, docD], [], [], [], [vitP], [], 2⟩

instance {ε α : Type} [DecidableEq ε] [DecidableEq α] : DecidableEq (Except ε α) :=
  fun x y =>
    match x, y with
    | Except.ok a, Except.ok b =>
        if h : a = b then isTrue (h ▸ rfl)
        else isFalse (fun hc => h (Except.ok.inj hc))
    | Except.error a, Except.error b =>
        if h : a = b then isTrue (h ▸ rfl)
        else isFalse (fun hc => h (Except.error.inj hc))
    | Except.ok _, Except.error _ => isFalse (fun hc => Except.noConfusion hc)
    | Except.error _, Except.ok _ => isFalse (fun hc => Except.noConfusion hc)

/-! ## Generic lemmas about keyed list updates

The manual upsert pattern of the handler is `find?` by key followed by
either an `insert` (cons) or an `update` keyed on the found row's id,
i.e. `l.map (fun x => if x.id == e.id then upd x else x)`.  The lemmas
here count key-matching rows through that pattern; `idf` abstracts the
primary key and `kp` the lookup predicate. -/

section KeyedUpdate

variable {α : Type} (idf : α → ℕ) (kp : α → Bool) (upd : α → α)

/-- After a keyed update of a row `e` matching `kp`, when ids are
pairwise distinct and no two rows match `kp`, exactly one row matches
`kp`. -/
theorem countP_map_keyed_update (l : List α) (e : α)
    (hpw : l.Pairwise (fun a b => idf a ≠ idf b ∧ ¬(kp a = true ∧ kp b = true)))
    (he : e ∈ l) (hkpe : kp e = true) (hkpu : kp (upd e) = true) :
    (l.map (fun x => if idf x == idf e then upd x else x)).countP kp = 1 := by
  induction l with
  | nil => cases he
  | cons h t ih =>
      rw [List.pairwise_cons] at hpw
      rw [List.map_cons, List.countP_cons]
      rcases List.mem_cons.mp he with rfl | het
      · have hh : (if idf e == idf e then upd e else e) = upd e := by simp
        rw [hh, if_pos hkpu]
        have hz : (t.map (fun x => if idf x == idf e then upd x else x)).countP kp = 0 := by
          rw [List.countP_eq_zero]
          intro a ha
          rcases List.mem_map.mp ha with ⟨x, hx, rfl⟩
          have hrel := hpw.1 x hx
          have hne : (idf x == idf e) = false := by
            simp only [beq_eq_false_iff_ne, ne_eq]
            exact fun hcontra => hrel.1 hcontra.symm
          rw [hne]
          simp only [Bool.false_eq_true, if_false, Bool.not_eq_true]
          by_contra hkx
          exact hrel.2 ⟨hkpe, by simpa using hkx⟩
        omega
      · have hrel := hpw.1 e het
        have hfh : (if (idf h == idf e) = true then upd h else h) = h := by
          have hne : (idf h == idf e) = false := by
            simp only [beq_eq_false_iff_ne, ne_eq]
            exact hrel.1
          rw [hne]
          simp
        have hkh : kp h = false := by
          by_contra hkx
          exact hrel.2 ⟨by simpa using hkx, hkpe⟩
        rw [hfh, hkh]
        simp only [Bool.false_eq_true, if_false, Nat.add_zero]
        exact ih hpw.2 het

/-- After a keyed update of the `kp`-matching row `e`, every `kp`-matching
row of the result is `upd e`. -/
theorem eq_upd_of_kp_of_mem_keyed_update (l : List α) (e r : α)
    (hpw : l.Pairwise (fun a b => idf a ≠ idf b ∧ ¬(kp a = true ∧ kp b = true)))
    (he : e ∈ l) (hkpe : kp e = true)
    (hr : r ∈ l.map (fun x => if idf x == idf e then upd x else x))
    (hkpr : kp r = true) : r = upd e := by
  have hsym : Symmetric (fun a b : α => idf a ≠ idf b ∧ ¬(kp a = true ∧ kp b = true)) := by
    intro a b hab
    exact ⟨fun hcontra => hab.1 hcontra.symm, fun hcontra => hab.2 ⟨hcontra.2, hcontra.1⟩⟩
  rcases List.mem_map.mp hr with ⟨x, hx, hfx⟩
  by_cases hid : idf x = idf e
  · have hxe : x = e := by
      by_contra hxe
      exact (hpw.forall hsym hx he hxe).1 hid
    subst hxe
    simpa using hfx.symm
  · have hif : (idf x == idf e) = false := by
      simp only [beq_eq_false_iff_ne, ne_eq]
      exact hid
    rw [hif] at hfx
    simp only [Bool.false_eq_true, if_false] at hfx
    have hxe : x ≠ e := fun hcontra => hid (congrArg idf hcontra)
    have hkx : kp x = true := by rw [hfx]; exact hkpr
    exact absurd ⟨hkx, hkpe⟩ ((hpw.forall hsym hx he hxe).2)

end KeyedUpdate

/-! ## The consent gate -/

/-- Under the `unique(patient_id, doctor_id)` constraint, `canDoctorView`
decides exactly the spec's mutual-consent condition. -/
theorem canDoctorView_iff_mutual (db : DB) (d p : String)
    (hu : linksPairUnique db) :
    canDoctorView db d p = true ↔ mutualLinkExists db p d := by
  unfold canDoctorView mutualLinkExists
  constructor
  · intro h
    cases hfind : db.doctor_patient_links.find?
        (fun l => l.doctor_id == d && l.patient_id == p) with
    | none => rw [hfind] at h; cases h
    | some l =>
        rw [hfind] at h
        have hmem := List.mem_of_find?_eq_some hfind
        have hp := List.find?_some hfind
        simp only [Bool.and_eq_true, beq_iff_eq] at hp h
        exact ⟨l, hmem, hp.2, hp.1, h.1, h.2⟩
  · rintro ⟨l, hmem, hpid, hdid, hps, hds⟩
    cases hfind : db.doctor_patient_links.find?
        (fun x => x.doctor_id == d && x.patient_id == p) with
    | none =>
        exfalso
        rw [List.find?_eq_none] at hfind
        exact hfind l hmem (by simp [hpid, hdid])
    | some l2 =>
        have hmem2 := List.mem_of_find?_eq_some hfind
        have hp2 := List.find?_some hfind
        simp only [Bool.and_eq_true, beq_iff_eq] at hp2
        have hsym : Symmetric (fun a b : LinkRow =>
            ¬(a.patient_id = b.patient_id ∧ a.doctor_id = b.doctor_id)) := by
          intro a b hab hcontra
          exact hab ⟨hcontra.1.symm, hcontra.2.symm⟩
        have hl2 : l2 = l := by
          by_contra hne
          exact (hu.forall hsym hmem2 hmem hne) ⟨hp2.2.trans hpid.symm, hp2.1.trans hdid.symm⟩
        subst hl2
        simp [hps, hds]

/-- Cross-account `habits.fetch` reduces to the role test and the consent
gate. -/
theorem habitsFetch_cross (db : DB) (caller : String) (today : ℤ)
    (rq : JsVal) (t : String) (ht : t ≠ "") (htc : t ≠ caller) :
    habitsFetch db caller today ⟨some t, rq⟩ =
      if roleOf db caller ≠ some "doctor" then Except.error ApiErr.forbidden
      else if canDoctorView db caller t then
        Except.ok (habitsQuery db t (today - jsOrInt (toInt rq) 7))
      else Except.error ApiErr.noPermission := by
  simp [habitsFetch, jsOrString, ht, htc, daysAgoISO]

/-- Cross-account `vitals.fetch` reduces to the role test and the consent
gate. -/
theorem vitalsFetch_cross (db : DB) (caller : String) (today : ℤ)
    (rq : JsVal) (t : String) (ht : t ≠ "") (htc : t ≠ caller) :
    vitalsFetch db caller today ⟨some t, rq⟩ =
      if roleOf db caller ≠ some "doctor" then Except.error ApiErr.forbidden
      else if canDoctorView db caller t then
        Except.ok (vitalsQuery db t (today - jsOrInt (toInt rq) 7))
      else Except.error ApiErr.noPermission := by
  simp [vitalsFetch, jsOrString, ht, htc, daysAgoISO]

/-- Cross-account `profile.get` reduces to the role test, the consent
gate, and the target-profile load. -/
theorem profileGet_cross (db : DB) (caller : String) (t : String)
    (ht : t ≠ "") (htc : t ≠ caller) :
    profileGet db caller (some t) =
      if roleOf db caller ≠ some "doctor" then Except.error ApiErr.forbidden
      else if canDoctorView db caller t then loadProfile db t
      else Except.error ApiErr.noPermission := by
  simp [profileGet, ht, htc]

/-- `loadProfile` itself (reached only after the gate) never produces an
authorization error. -/
theorem loadProfile_not_authErr (db : DB) (uid : String) :
    isAuthErr (loadProfile db uid) = false := by
  unfold loadProfile
  cases db.profiles.find? (fun p => p.id == uid) with
  | none => rfl
  | some prof =>
      by_cases h1 : prof.role = some "patient"
      · simp [h1, isAuthErr]
      · by_cases h2 : prof.role = some "doctor"
        · simp [h1, h2, isAuthErr]
        · simp [h1, h2, isAuthErr]

/-! ## Consent-flag monotonicity -/

theorem flagLe_refl (l : LinkRow) : flagLe l l :=
  ⟨rfl, rfl, rfl, id, id⟩

theorem flagLe_trans {a b c : LinkRow} (hab : flagLe a b) (hbc : flagLe b c) :
    flagLe a c :=
  ⟨hbc.1.trans hab.1, hbc.2.1.trans hab.2.1, hbc.2.2.1.trans hab.2.2.1,
   fun h => hbc.2.2.2.1 (hab.2.2.2.1 h), fun h => hbc.2.2.2.2 (hab.2.2.2.2 h)⟩

theorem upsertProfileRow_links (db : DB) (r : Profile) :
    (upsertProfileRow db r).doctor_patient_links = db.doctor_patient_links := by
  unfold upsertProfileRow; split <;> rfl

theorem upsertPatientRow_links (db : DB) (r : PatientDetail) :
    (upsertPatientRow db r).doctor_patient_links = db.doctor_patient_links := by
  unfold upsertPatientRow; split <;> rfl

theorem upsertDoctorRow_links (db : DB) (r : DoctorDetail) :
    (upsertDoctorRow db r).doctor_patient_links = db.doctor_patient_links := by
  unfold upsertDoctorRow; split <;> rfl

theorem ensureProfile_links (db : DB) (u : String) (e : Option String)
    (b : ProfileBody) :
    (ensureProfile db u e b).doctor_patient_links = db.doctor_patient_links := by
  unfold ensureProfile
  by_cases h1 : b.role = some "patient"
  · simp [h1, upsertPatientRow_links, upsertProfileRow_links]
  · by_cases h2 : b.role = some "doctor"
    · simp [h1, h2, upsertDoctorRow_links, upsertProfileRow_links]
    · simp [h1, h2, upsertProfileRow_links]

theorem habitsUpsert_links (db : DB) (c : String) (today : ℤ) (b : HabitBody) :
    (habitsUpsert db c today b).doctor_patient_links = db.doctor_patient_links := by
  unfold habitsUpsert
  dsimp only
  split <;> rfl

theorem vitalsUpsert_links (db : DB) (c : String) (today : ℤ) (b : VitalBody) :
    (vitalsUpsert db c today b).doctor_patient_links = db.doctor_patient_links := by
  unfold vitalsUpsert
  dsimp only
  split <;> rfl

theorem setPatientSelected_mono (db : DB) (i : ℕ) (l : LinkRow)
    (hl : l ∈ db.doctor_patient_links) :
    ∃ l2 ∈ (setPatientSelected db i).doctor_patient_links, flagLe l l2 := by
  refine ⟨_, List.mem_map_of_mem
    (fun x => if x.id == i then { x with patient_selected := true } else x) hl, ?_⟩
  by_cases h : (l.id == i) = true
  · simp only [h, if_true]
    exact ⟨rfl, rfl, rfl, fun _ => rfl, id⟩
  · simp only [h, Bool.false_eq_true, if_false]
    exact flagLe_refl l

theorem setDoctorSelected_mono (db : DB) (i : ℕ) (l : LinkRow)
    (hl : l ∈ db.doctor_patient_links) :
    ∃ l2 ∈ (setDoctorSelected db i).doctor_patient_links, flagLe l l2 := by
  refine ⟨_, List.mem_map_of_mem
    (fun x => if x.id == i then { x with doctor_selected := true } else x) hl, ?_⟩
  by_cases h : (l.id == i) = true
  · simp only [h, if_true]
    exact ⟨rfl, rfl, rfl, id, fun _ => rfl⟩
  · simp only [h, Bool.false_eq_true, if_false]
    exact flagLe_refl l

theorem getOrCreateLink_mem (db : DB) (p d : String) (l : LinkRow)
    (hl : l ∈ db.doctor_patient_links) :
    l ∈ (getOrCreateLink db p d).2.doctor_patient_links := by
  unfold getOrCreateLink
  cases db.doctor_patient_links.find?
      (fun x => x.patient_id == p && x.doctor_id == d) with
  | some l0 => exact hl
  | none => exact List.mem_cons_of_mem _ hl

theorem linkSelect_mono (db : DB) (c : String) (b : LinkBody) (l : LinkRow)
    (hl : l ∈ db.doctor_patient_links) :
    ∃ l2 ∈ (linkSelect db c b).doctor_patient_links, flagLe l l2 := by
  unfold linkSelect
  cases getProfile db c with
  | none => exact ⟨l, hl, flagLe_refl l⟩
  | some myProfile =>
      by_cases h1 : myProfile.role = some "patient"
      · simp only [h1, if_true]
        cases b.doctor_id with
        | none => exact ⟨l, hl, flagLe_refl l⟩
        | some doctorId =>
            by_cases hd : doctorId = ""
            · simp only [hd, if_true]
              exact ⟨l, hl, flagLe_refl l⟩
            · simp only [hd, if_false]
              exact setPatientSelected_mono _ _ l (getOrCreateLink_mem db c doctorId l hl)
      · by_cases h2 : myProfile.role = some "doctor"
        · simp only [h1, h2, if_false, if_true]
          cases b.patient_email with
          | none => exact ⟨l, hl, flagLe_refl l⟩
          | some patientEmail =>
              by_cases he : patientEmail = ""
              · simp only [he, if_true]
                exact ⟨l, hl, flagLe_refl l⟩
              · simp only [he, if_false]
                cases db.profiles.find? (fun p =>
                    p.email == some patientEmail && p.role == some "patient") with
                | none => exact ⟨l, hl, flagLe_refl l⟩
                | some patient =>
                    exact setDoctorSelected_mono _ _ l
                      (getOrCreateLink_mem db patient.id c l hl)
        · simp only [h1, h2, if_false]
          exact ⟨l, hl, flagLe_refl l⟩

theorem step_mono (db : DB) (a : Action) (l : LinkRow)
    (hl : l ∈ db.doctor_patient_links) :
    ∃ l2 ∈ (step db a).doctor_patient_links, flagLe l l2 := by
  cases a with
  | profileUp u e b =>
      refine ⟨l, ?_, flagLe_refl l⟩
      rw [step, ensureProfile_links]
      exact hl
  | habitsUp u today b =>
      refine ⟨l, ?_, flagLe_refl l⟩
      rw [step, habitsUpsert_links]
      exact hl
  | vitalsUp u today b =>
      refine ⟨l, ?_, flagLe_refl l⟩
      rw [step, vitalsUpsert_links]
      exact hl
  | linkSel u b => exact linkSelect_mono db u b l hl
  | readOnly => exact ⟨l, hl, flagLe_refl l⟩

theorem run_mono (db : DB) (as : List Action) (l : LinkRow)
    (hl : l ∈ db.doctor_patient_links) :
    ∃ l2 ∈ (run db as).doctor_patient_links, flagLe l l2 := by
  induction as generalizing db l with
  | nil => exact ⟨l, hl, flagLe_refl l⟩
  | cons a rest ih =>
      rcases step_mono db a l hl with ⟨lmid, hmid, hle1⟩
      rcases ih (step db a) lmid hmid with ⟨l2, h2, hle2⟩
      exact ⟨l2, h2, flagLe_trans hle1 hle2⟩

/-! ## Upsert characterizations -/

/-- After a keyed update of the `kp`-matching row `e`, `find?` locates
exactly `upd e`. -/
theorem find?_map_keyed_update {α : Type} (idf : α → ℕ) (kp : α → Bool)
    (upd : α → α) (l : List α) (e : α)
    (hpw : l.Pairwise (fun a b => idf a ≠ idf b ∧ ¬(kp a = true ∧ kp b = true)))
    (he : e ∈ l) (hkpe : kp e = true) (hkpu : kp (upd e) = true) :
    (l.map (fun x => if idf x == idf e then upd x else x)).find? kp = some (upd e) := by
  induction l with
  | nil => cases he
  | cons h t ih =>
      rw [List.pairwise_cons] at hpw
      rw [List.map_cons]
      rcases List.mem_cons.mp he with rfl | het
      · have hh : (if idf e == idf e then upd e else e) = upd e := by simp
        rw [hh]
        exact List.find?_cons_of_pos _ hkpu
      · have hrel := hpw.1 e het
        have hfh : (if (idf h == idf e) = true then upd h else h) = h := by
          have hne : (idf h == idf e) = false := by
            simp only [beq_eq_false_iff_ne, ne_eq]
            exact hrel.1
          rw [hne]
          simp
        have hkh : kp h = false := by
          by_contra hkx
          exact hrel.2 ⟨by simpa using hkx, hkpe⟩
        rw [hfh, List.find?_cons_of_neg _ (by simp [hkh])]
        exact ih hpw.2 het

/-- `habits.upsert` when a row for the key exists: keyed full-row
update. -/
theorem habitsUpsert_of_find_some (db : DB) (c : String) (today : ℤ)
    (b : HabitBody) (e : HabitRow)
    (hfind : db.habits.find?
      (fun h => h.user_id == c && h.date == b.date.getD today) = some e) :
    habitsUpsert db c today b =
      { db with habits := db.habits.map (fun h =>
          if h.id == e.id then
            { h with user_id := c, date := b.date.getD today,
                     steps := jsOrInt (toInt b.steps) 0,
                     water_cups := jsOrInt (toInt b.water_cups) 0,
                     sleep_hours := jsOrRat (toFloat b.sleep_hours) 0 }
          else h) } := by
  unfold habitsUpsert
  dsimp only
  rw [hfind]

/-- `habits.upsert` when no row for the key exists: insert. -/
theorem habitsUpsert_of_find_none (db : DB) (c : String) (today : ℤ)
    (b : HabitBody)
    (hfind : db.habits.find?
      (fun h => h.user_id == c && h.date == b.date.getD today) = none) :
    habitsUpsert db c today b =
      { db with
        habits := (⟨db.nextId, c, b.date.getD today, jsOrInt (toInt b.steps) 0,
          jsOrInt (toInt b.water_cups) 0, jsOrRat (toFloat b.sleep_hours) 0⟩ : HabitRow) :: db.habits,
        nextId := db.nextId + 1 } := by
  unfold habitsUpsert
  dsimp only
  rw [hfind]

/-- `vitals.upsert` when a row for the key exists: keyed full-row
update. -/
theorem vitalsUpsert_of_find_some (db : DB) (c : String) (today : ℤ)
    (b : VitalBody) (e : VitalRow)
    (hfind : db.vitals.find?
      (fun v => v.user_id == c && v.date == b.date.getD today) = some e) :
    vitalsUpsert db c today b =
      { db with vitals := db.vitals.map (fun v =>
          if v.id == e.id then
            { v with user_id := c, date := b.date.getD today,
                     blood_glucose := toInt b.blood_glucose,
                     blood_pressure_sys := toInt b.blood_pressure_sys,
                     blood_pressure_dia := toInt b.blood_pressure_dia,
                     heart_rate := toInt b.heart_rate,
                     body_temperature := toFloat b.body_temperature }
          else v) } := by
  unfold vitalsUpsert
  dsimp only
  rw [hfind]

/-- `vitals.upsert` when no row for the key exists: insert. -/
theorem vitalsUpsert_of_find_none (db : DB) (c : String) (today : ℤ)
    (b : VitalBody)
    (hfind : db.vitals.find?
      (fun v => v.user_id == c && v.date == b.date.getD today) = none) :
    vitalsUpsert db c today b =
      { db with
        vitals := (⟨db.nextId, c, b.date.getD today, toInt b.blood_glucose,
          toInt b.blood_pressure_sys, toInt b.blood_pressure_dia,
          toInt b.heart_rate, toFloat b.body_temperature⟩ : VitalRow) :: db.vitals,
        nextId := db.nextId + 1 } := by
  unfold vitalsUpsert
  dsimp only
  rw [hfind]

/-- Two keyed full-row habit updates on the same id compose to the second
one. -/
theorem updH_comp (i : ℕ) (c : String) (d : ℤ) (s1 w1 : ℤ) (sl1 : ℚ)
    (s2 w2 : ℤ) (sl2 : ℚ) :
    ∀ x : HabitRow,
      (fun y : HabitRow => if y.id == i then
        { y with user_id := c, date := d, steps := s2, water_cups := w2,
                 sleep_hours := sl2 } else y)
      ((fun y : HabitRow => if y.id == i then
        { y with user_id := c, date := d, steps := s1, water_cups := w1,
                 sleep_hours := sl1 } else y) x) =
      (fun y : HabitRow => if y.id == i then
        { y with user_id := c, date := d, steps := s2, water_cups := w2,
                 sleep_hours := sl2 } else y) x := by
  intro x
  by_cases h : (x.id == i) = true
  · simp [h]
  · simp [h]

/-! ## `link.select` idempotence machinery -/

/-- `find?` commutes with mapping a function that does not change the
predicate's verdict. -/
theorem find?_map_invariant {α : Type} (f : α → α) (p : α → Bool)
    (hp : ∀ x, p (f x) = p x) (l : List α) :
    (l.map f).find? p = (l.find? p).map f := by
  induction l with
  | nil => rfl
  | cons h t ih =>
      rw [List.map_cons, List.find?_cons, List.find?_cons, hp]
      cases hph : p h with
      | true => rfl
      | false => exact ih

theorem getOrCreateLink_of_find_some (db : DB) (p d : String) (l0 : LinkRow)
    (hfind : db.doctor_patient_links.find?
      (fun l => l.patient_id == p && l.doctor_id == d) = some l0) :
    getOrCreateLink db p d = (l0, db) := by
  unfold getOrCreateLink
  rw [hfind]

theorem getOrCreateLink_of_find_none (db : DB) (p d : String)
    (hfind : db.doctor_patient_links.find?
      (fun l => l.patient_id == p && l.doctor_id == d) = none) :
    getOrCreateLink db p d =
      (⟨db.nextId, p, d, false, false⟩,
       { db with
         doctor_patient_links := (⟨db.nextId, p, d, false, false⟩ : LinkRow) :: db.doctor_patient_links,
         nextId := db.nextId + 1 }) := by
  unfold getOrCreateLink
  rw [hfind]

/-- `link.select` by a patient reduces to get-or-create followed by the
`patient_selected` update. -/
theorem linkSelect_patient_eq (db : DB) (c did : String) (b : LinkBody)
    (pr : Profile) (hprof : getProfile db c = some pr)
    (hrole : pr.role = some "patient") (hb : b.doctor_id = some did)
    (hdid : did ≠ "") :
    linkSelect db c b =
      setPatientSelected (getOrCreateLink db c did).2 (getOrCreateLink db c did).1.id := by
  unfold linkSelect
  rw [hprof, hb]
  simp [hrole, hdid]

/-- The `patient_selected` update does not change a row's pair fields. -/
theorem updP_pair_invariant (i : ℕ) (c did : String) :
    ∀ x : LinkRow,
      ((if x.id == i then { x with patient_selected := true } else x).patient_id == c &&
       (if x.id == i then { x with patient_selected := true } else x).doctor_id == did) =
      (x.patient_id == c && x.doctor_id == did) := by
  intro x
  by_cases h : (x.id == i) = true
  · rw [if_pos h]
  · rw [if_neg h]

/-- The `patient_selected` update is idempotent. -/
theorem updP_idem (i : ℕ) :
    ∀ x : LinkRow,
      (fun y : LinkRow => if y.id == i then { y with patient_selected := true } else y)
        ((fun y : LinkRow => if y.id == i then { y with patient_selected := true } else y) x) =
      (fun y : LinkRow => if y.id == i then { y with patient_selected := true } else y) x := by
  intro x
  by_cases h : (x.id == i) = true
  · simp only [h, if_true]
  · simp only [h, Bool.false_eq_true, if_false]

/-! ## Claims -/

/-- C5: for every account and calendar date, after `habits.upsert`
completes there is exactly one habits row keyed by that (account, date),
and upserting twice for the same (account, date) leaves one row holding
the second call's values (last write wins). -/
theorem c5_habits_upsert_exactly_one_row_last_write_wins
    (db : DB) (c : String) (today : ℤ) (b1 b2 : HabitBody)
    (hWF : habitsWF db)
    (hd : b2.date.getD today = b1.date.getD today) :
    ((habitsUpsert db c today b1).habits.countP
        (fun h => h.user_id == c && h.date == b1.date.getD today) = 1) ∧
    ((habitsUpsert (habitsUpsert db c today b1) c today b2).habits.countP
        (fun h => h.user_id == c && h.date == b1.date.getD today) = 1) ∧
    (∀ r ∈ (habitsUpsert (habitsUpsert db c today b1) c today b2).habits,
        (r.user_id == c && r.date == b1.date.getD today) = true →
        r.steps = jsOrInt (toInt b2.steps) 0 ∧
        r.water_cups = jsOrInt (toInt b2.water_cups) 0 ∧
        r.sleep_hours = jsOrRat (toFloat b2.sleep_hours) 0) := by
  have hpw : db.habits.Pairwise
      (fun a b => a.id ≠ b.id ∧
        ¬((a.user_id == c && a.date == b1.date.getD today) = true ∧
          (b.user_id == c && b.date == b1.date.getD today) = true)) := by
    refine hWF.1.imp ?_
    intro a b hab
    refine ⟨hab.1, ?_⟩
    rintro ⟨ha, hb⟩
    simp only [Bool.and_eq_true, beq_iff_eq] at ha hb
    exact hab.2 ⟨ha.1.trans hb.1.symm, ha.2.trans hb.2.symm⟩
  cases hfind : db.habits.find?
      (fun h => h.user_id == c && h.date == b1.date.getD today) with
  | some e =>
      have hmem := List.mem_of_find?_eq_some hfind
      have hkpe : (e.user_id == c && e.date == b1.date.getD today) = true := by
        simpa using List.find?_some hfind
      have h1 := habitsUpsert_of_find_some db c today b1 e hfind
      have hkpu1 :
          (((fun y : HabitRow =>
            { y with user_id := c, date := b1.date.getD today,
                     steps := jsOrInt (toInt b1.steps) 0,
                     water_cups := jsOrInt (toInt b1.water_cups) 0,
                     sleep_hours := jsOrRat (toFloat b1.sleep_hours) 0 }) e).user_id == c &&
           ((fun y : HabitRow =>
            { y with user_id := c, date := b1.date.getD today,
                     steps := jsOrInt (toInt b1.steps) 0,
                     water_cups := jsOrInt (toInt b1.water_cups) 0,
                     sleep_hours := jsOrRat (toFloat b1.sleep_hours) 0 }) e).date ==
             b1.date.getD today) = true := by simp
      have hfind2 : (habitsUpsert db c today b1).habits.find?
          (fun h => h.user_id == c && h.date == b2.date.getD today) =
          some ((fun y : HabitRow =>
            { y with user_id := c, date := b1.date.getD today,
                     steps := jsOrInt (toInt b1.steps) 0,
                     water_cups := jsOrInt (toInt b1.water_cups) 0,
                     sleep_hours := jsOrRat (toFloat b1.sleep_hours) 0 }) e) := by
        rw [hd, h1]
        exact find?_map_keyed_update (fun x : HabitRow => x.id)
          (fun h : HabitRow => h.user_id == c && h.date == b1.date.getD today)
          (fun y : HabitRow =>
            { y with user_id := c, date := b1.date.getD today,
                      steps := jsOrInt (toInt b1.steps) 0,
                      water_cups := jsOrInt (toInt b1.water_cups) 0,
                      sleep_hours := jsOrRat (toFloat b1.sleep_hours) 0 })
          db.habits e hpw hmem hkpe hkpu1
      have h2 := habitsUpsert_of_find_some (habitsUpsert db c today b1) c today b2 _ hfind2
      rw [hd] at h2
      have hcomp : (habitsUpsert (habitsUpsert db c today b1) c today b2).habits =
          db.habits.map (fun x => if x.id == e.id then
            { x with user_id := c, date := b1.date.getD today,
                     steps := jsOrInt (toInt b2.steps) 0,
                     water_cups := jsOrInt (toInt b2.water_cups) 0,
                     sleep_hours := jsOrRat (toFloat b2.sleep_hours) 0 } else x) := by
        rw [h2, h1]
        dsimp only
        rw [List.map_map]
        exact List.map_congr_left (fun x _ =>
          updH_comp e.id c (b1.date.getD today)
            (jsOrInt (toInt b1.steps) 0) (jsOrInt (toInt b1.water_cups) 0)
            (jsOrRat (toFloat b1.sleep_hours) 0)
            (jsOrInt (toInt b2.steps) 0) (jsOrInt (toInt b2.water_cups) 0)
            (jsOrRat (toFloat b2.sleep_hours) 0) x)
      refine ⟨?_, ?_, ?_⟩
      · rw [h1]
        exact countP_map_keyed_update (fun x : HabitRow => x.id)
          (fun h : HabitRow => h.user_id == c && h.date == b1.date.getD today)
          (fun y : HabitRow =>
            { y with user_id := c, date := b1.date.getD today,
                      steps := jsOrInt (toInt b1.steps) 0,
                      water_cups := jsOrInt (toInt b1.water_cups) 0,
                      sleep_hours := jsOrRat (toFloat b1.sleep_hours) 0 })
          db.habits e hpw hmem hkpe hkpu1
      · rw [hcomp]
        exact countP_map_keyed_update (fun x : HabitRow => x.id)
          (fun h : HabitRow => h.user_id == c && h.date == b1.date.getD today)
          (fun y : HabitRow =>
            { y with user_id := c, date := b1.date.getD today,
                      steps := jsOrInt (toInt b2.steps) 0,
                      water_cups := jsOrInt (toInt b2.water_cups) 0,
                      sleep_hours := jsOrRat (toFloat b2.sleep_hours) 0 })
          db.habits e hpw hmem hkpe (by simp)
      · intro r hr hkp
        rw [hcomp] at hr
        have hleq := eq_upd_of_kp_of_mem_keyed_update (fun x : HabitRow => x.id)
          (fun h : HabitRow => h.user_id == c && h.date == b1.date.getD today)
          (fun y : HabitRow =>
            { y with user_id := c, date := b1.date.getD today,
                      steps := jsOrInt (toInt b2.steps) 0,
                      water_cups := jsOrInt (toInt b2.water_cups) 0,
                      sleep_hours := jsOrRat (toFloat b2.sleep_hours) 0 })
          db.habits e r hpw hmem hkpe hr hkp
        rw [hleq]
        exact ⟨rfl, rfl, rfl⟩
  | none =>
      have hcount0 : db.habits.countP
          (fun h => h.user_id == c && h.date == b1.date.getD today) = 0 := by
        rw [List.countP_eq_zero]
        rw [List.find?_eq_none] at hfind
        exact hfind
      have h1 := habitsUpsert_of_find_none db c today b1 hfind
      have htail : ∀ x ∈ db.habits,
          (fun y : HabitRow => if y.id == db.nextId then
            { y with user_id := c, date := b1.date.getD today,
                     steps := jsOrInt (toInt b2.steps) 0,
                     water_cups := jsOrInt (toInt b2.water_cups) 0,
                     sleep_hours := jsOrRat (toFloat b2.sleep_hours) 0 } else y) x = x := by
        intro x hx
        have hlt := hWF.2 x hx
        have hne : (x.id == db.nextId) = false := by
          simp only [beq_eq_false_iff_ne, ne_eq]
          omega
        simp only [hne, Bool.false_eq_true, if_false]
      have hfind2 : (habitsUpsert db c today b1).habits.find?
          (fun h => h.user_id == c && h.date == b2.date.getD today) =
          some (⟨db.nextId, c, b1.date.getD today, jsOrInt (toInt b1.steps) 0,
            jsOrInt (toInt b1.water_cups) 0, jsOrRat (toFloat b1.sleep_hours) 0⟩ : HabitRow) := by
        rw [hd, h1]
        exact List.find?_cons_of_pos _ (by simp)
      have h2 := habitsUpsert_of_find_some (habitsUpsert db c today b1) c today b2 _ hfind2
      rw [hd] at h2
      have hlist2 : (habitsUpsert (habitsUpsert db c today b1) c today b2).habits =
          (⟨db.nextId, c, b1.date.getD today, jsOrInt (toInt b2.steps) 0,
            jsOrInt (toInt b2.water_cups) 0, jsOrRat (toFloat b2.sleep_hours) 0⟩ : HabitRow) ::
          db.habits := by
        rw [h2, h1]
        dsimp only
        rw [List.map_cons]
        congr 1
        · simp
        · exact (List.map_congr_left htail).trans (List.map_id _)
      refine ⟨?_, ?_, ?_⟩
      · rw [h1]
        dsimp only
        rw [List.countP_cons, hcount0]
        simp
      · rw [hlist2, List.countP_cons, hcount0]
        simp
      · intro r hr hkp
        rw [hlist2] at hr
        rcases List.mem_cons.mp hr with rfl | hrt
        · exact ⟨rfl, rfl, rfl⟩
        · exfalso
          rw [List.find?_eq_none] at hfind
          exact hfind r hrt hkp

/-- Witness for C5: upserting twice for `("p", day 100)` in `dbNoLink`
leaves exactly one row with the second call's values. -/
theorem c5_witness :
    (habitsWF dbNoLink ∧
     ((⟨some 100, JsVal.str "9000", JsVal.num 8, JsVal.str "6.5"⟩ : HabitBody).date.getD 100 =
      (⟨some 100, JsVal.num 5000, JsVal.num 6, JsVal.str "7.5"⟩ : HabitBody).date.getD 100)) ∧
    (((habitsUpsert dbNoLink "p" 100
        ⟨some 100, JsVal.num 5000, JsVal.num 6, JsVal.str "7.5"⟩).habits.countP
        (fun h => h.user_id == "p" &&
          h.date == (⟨some 100, JsVal.num 5000, JsVal.num 6, JsVal.str "7.5"⟩ : HabitBody).date.getD 100) = 1) ∧
     ((habitsUpsert (habitsUpsert dbNoLink "p" 100
          ⟨some 100, JsVal.num 5000, JsVal.num 6, JsVal.str "7.5"⟩) "p" 100
          ⟨some 100, JsVal.str "9000", JsVal.num 8, JsVal.str "6.5"⟩).habits.countP
        (fun h => h.user_id == "p" &&
          h.date == (⟨some 100, JsVal.num 5000, JsVal.num 6, JsVal.str "7.5"⟩ : HabitBody).date.getD 100) = 1) ∧
     (∀ r ∈ (habitsUpsert (habitsUpsert dbNoLink "p" 100
          ⟨some 100, JsVal.num 5000, JsVal.num 6, JsVal.str "7.5"⟩) "p" 100
          ⟨some 100, JsVal.str "9000", JsVal.num 8, JsVal.str "6.5"⟩).habits,
        (r.user_id == "p" &&
          r.date == (⟨some 100, JsVal.num 5000, JsVal.num 6, JsVal.str "7.5"⟩ : HabitBody).date.getD 100) = true →
        r.steps = jsOrInt (toInt (JsVal.str "9000")) 0 ∧
        r.water_cups = jsOrInt (toInt (JsVal.num 8)) 0 ∧
        r.sleep_hours = jsOrRat (toFloat (JsVal.str "6.5")) 0)) := by
  refine ⟨⟨by decide, by decide⟩, ?_⟩
  exact c5_habits_upsert_exactly_one_row_last_write_wins dbNoLink "p" 100
    ⟨some 100, JsVal.num 5000, JsVal.num 6, JsVal.str "7.5"⟩
    ⟨some 100, JsVal.str "9000", JsVal.num 8, JsVal.str "6.5"⟩
    (by decide) (by decide)

/-- Extracting the query from a successful `habits.fetch`. -/
theorem habitsFetch_ok_items (db : DB) (c : String) (today : ℤ)
    (q : FetchQuery) (items : List HabitOut)
    (h : habitsFetch db c today q = Except.ok items) :
    items = habitsQuery db (jsOrString q.user_id c)
      (daysAgoISO today (jsOrInt (toInt q.rangeDays) 7)) := by
  unfold habitsFetch at h
  dsimp only at h
  split at h
  · split at h
    · cases h
    · split at h
      · exact (Except.ok.inj h).symm
      · cases h
  · exact (Except.ok.inj h).symm

/-- Extracting the query from a successful `vitals.fetch`. -/
theorem vitalsFetch_ok_items (db : DB) (c : String) (today : ℤ)
    (q : FetchQuery) (items : List VitalOut)
    (h : vitalsFetch db c today q = Except.ok items) :
    items = vitalsQuery db (jsOrString q.user_id c)
      (daysAgoISO today (jsOrInt (toInt q.rangeDays) 7)) := by
  unfold vitalsFetch at h
  dsimp only at h
  split at h
  · split at h
    · cases h
    · split at h
      · exact (Except.ok.inj h).symm
      · cases h
  · exact (Except.ok.inj h).symm

/-- Membership in the ranged habit query. -/
theorem mem_habitsQuery (db : DB) (u : String) (since : ℤ) (r : HabitOut) :
    r ∈ habitsQuery db u since ↔
      ∃ h ∈ db.habits, h.user_id = u ∧ since ≤ h.date ∧ projHabit h = r := by
  unfold habitsQuery
  rw [(List.perm_insertionSort dateDescH _).mem_iff]
  constructor
  · intro hr
    rcases List.mem_map.mp hr with ⟨a, ha, rfl⟩
    have hfa := List.mem_filter.mp ha
    have hpred := hfa.2
    simp only [Bool.and_eq_true, beq_iff_eq, decide_eq_true_eq] at hpred
    exact ⟨a, hfa.1, hpred.1, hpred.2, rfl⟩
  · rintro ⟨a, ha, hu, hd, rfl⟩
    exact List.mem_map_of_mem _ (List.mem_filter.mpr ⟨ha, by simp [hu, hd]⟩)

/-- Membership in the ranged vital query. -/
theorem mem_vitalsQuery (db : DB) (u : String) (since : ℤ) (r : VitalOut) :
    r ∈ vitalsQuery db u since ↔
      ∃ v ∈ db.vitals, v.user_id = u ∧ since ≤ v.date ∧ projVital v = r := by
  unfold vitalsQuery
  rw [(List.perm_insertionSort dateDescV _).mem_iff]
  constructor
  · intro hr
    rcases List.mem_map.mp hr with ⟨a, ha, rfl⟩
    have hfa := List.mem_filter.mp ha
    have hpred := hfa.2
    simp only [Bool.and_eq_true, beq_iff_eq, decide_eq_true_eq] at hpred
    exact ⟨a, hfa.1, hpred.1, hpred.2, rfl⟩
  · rintro ⟨a, ha, hu, hd, rfl⟩
    exact List.mem_map_of_mem _ (List.mem_filter.mpr ⟨ha, by simp [hu, hd]⟩)

/-- C6: in `habits.upsert` and `vitals.upsert`, an omitted date defaults
to the caller's current date, and numeric parsing is lenient: an invalid
or missing numeric value is stored as 0 for each habit field and as null
for each vital field. -/
theorem c6_upsert_date_default_and_lenient_parsing
    (db : DB) (c : String) (today : ℤ) (hb : HabitBody) (vb : VitalBody) :
    (∃ r ∈ (habitsUpsert db c today hb).habits,
      r.user_id = c ∧ r.date = hb.date.getD today ∧
      (hb.date = none → r.date = today) ∧
      (toInt hb.steps = none → r.steps = 0) ∧
      (toInt hb.water_cups = none → r.water_cups = 0) ∧
      (toFloat hb.sleep_hours = none → r.sleep_hours = 0)) ∧
    (∃ r ∈ (vitalsUpsert db c today vb).vitals,
      r.user_id = c ∧ r.date = vb.date.getD today ∧
      (vb.date = none → r.date = today) ∧
      (toInt vb.blood_glucose = none → r.blood_glucose = none) ∧
      (toInt vb.blood_pressure_sys = none → r.blood_pressure_sys = none) ∧
      (toInt vb.blood_pressure_dia = none → r.blood_pressure_dia = none) ∧
      (toInt vb.heart_rate = none → r.heart_rate = none) ∧
      (toFloat vb.body_temperature = none → r.body_temperature = none)) := by
  constructor
  · cases hfind : db.habits.find?
        (fun h => h.user_id == c && h.date == hb.date.getD today) with
    | some e =>
        rw [habitsUpsert_of_find_some db c today hb e hfind]
        refine ⟨_, List.mem_map_of_mem
          (fun h => if h.id == e.id then
            { h with user_id := c, date := hb.date.getD today,
                     steps := jsOrInt (toInt hb.steps) 0,
                     water_cups := jsOrInt (toInt hb.water_cups) 0,
                     sleep_hours := jsOrRat (toFloat hb.sleep_hours) 0 } else h)
          (List.mem_of_find?_eq_some hfind),
          by simp, by simp, fun h => by simp [h, jsOrInt, jsOrRat], fun h => by simp [h, jsOrInt, jsOrRat],
          fun h => by simp [h, jsOrInt, jsOrRat], fun h => by simp [h, jsOrInt, jsOrRat]⟩
    | none =>
        rw [habitsUpsert_of_find_none db c today hb hfind]
        exact ⟨_, List.mem_cons_self _ _,
          by simp, by simp, fun h => by simp [h, jsOrInt, jsOrRat], fun h => by simp [h, jsOrInt, jsOrRat],
          fun h => by simp [h, jsOrInt, jsOrRat], fun h => by simp [h, jsOrInt, jsOrRat]⟩
  · cases hfind : db.vitals.find?
        (fun v => v.user_id == c && v.date == vb.date.getD today) with
    | some e =>
        rw [vitalsUpsert_of_find_some db c today vb e hfind]
        refine ⟨_, List.mem_map_of_mem
          (fun v => if v.id == e.id then
            { v with user_id := c, date := vb.date.getD today,
                     blood_glucose := toInt vb.blood_glucose,
                     blood_pressure_sys := toInt vb.blood_pressure_sys,
                     blood_pressure_dia := toInt vb.blood_pressure_dia,
                     heart_rate := toInt vb.heart_rate,
                     body_temperature := toFloat vb.body_temperature } else v)
          (List.mem_of_find?_eq_some hfind),
          by simp, by simp, fun h => by simp [h, jsOrInt, jsOrRat], fun h => by simp [h, jsOrInt, jsOrRat],
          fun h => by simp [h, jsOrInt, jsOrRat], fun h => by simp [h, jsOrInt, jsOrRat], fun h => by simp [h, jsOrInt, jsOrRat],
          fun h => by simp [h, jsOrInt, jsOrRat]⟩
    | none =>
        rw [vitalsUpsert_of_find_none db c today vb hfind]
        exact ⟨_, List.mem_cons_self _ _,
          by simp, by simp, fun h => by simp [h, jsOrInt, jsOrRat], fun h => by simp [h, jsOrInt, jsOrRat],
          fun h => by simp [h, jsOrInt, jsOrRat], fun h => by simp [h, jsOrInt, jsOrRat], fun h => by simp [h, jsOrInt, jsOrRat],
          fun h => by simp [h, jsOrInt, jsOrRat]⟩

/-- Witness for C6: a body with absent date and unparsable numerics stores
day 100 (today), zeros for habits and nulls for vitals. -/
theorem c6_witness :
    (∃ r ∈ (habitsUpsert dbNoLink "p" 100
        ⟨none, JsVal.str "abc", JsVal.undef, JsVal.jnull⟩).habits,
      r.user_id = "p" ∧
      r.date = (⟨none, JsVal.str "abc", JsVal.undef, JsVal.jnull⟩ : HabitBody).date.getD 100 ∧
      ((⟨none, JsVal.str "abc", JsVal.undef, JsVal.jnull⟩ : HabitBody).date = none → r.date = 100) ∧
      (toInt (JsVal.str "abc") = none → r.steps = 0) ∧
      (toInt JsVal.undef = none → r.water_cups = 0) ∧
      (toFloat JsVal.jnull = none → r.sleep_hours = 0)) ∧
    (∃ r ∈ (vitalsUpsert dbNoLink "p" 100
        ⟨none, JsVal.str "x1", JsVal.undef, JsVal.jnull, JsVal.str "", JsVal.str "."⟩).vitals,
      r.user_id = "p" ∧
      r.date = (⟨none, JsVal.str "x1", JsVal.undef, JsVal.jnull, JsVal.str "", JsVal.str "."⟩ : VitalBody).date.getD 100 ∧
      ((⟨none, JsVal.str "x1", JsVal.undef, JsVal.jnull, JsVal.str "", JsVal.str "."⟩ : VitalBody).date = none → r.date = 100) ∧
      (toInt (JsVal.str "x1") = none → r.blood_glucose = none) ∧
      (toInt JsVal.undef = none → r.blood_pressure_sys = none) ∧
      (toInt JsVal.jnull = none → r.blood_pressure_dia = none) ∧
      (toInt (JsVal.str "") = none → r.heart_rate = none) ∧
      (toFloat (JsVal.str ".") = none → r.body_temperature = none)) :=
  c6_upsert_date_default_and_lenient_parsing dbNoLink "p" 100
    ⟨none, JsVal.str "abc", JsVal.undef, JsVal.jnull⟩
    ⟨none, JsVal.str "x1", JsVal.undef, JsVal.jnull, JsVal.str "", JsVal.str "."⟩

/-- Counterexample to C7 as stated: `habits.upsert` accepts `steps: "-5"`
and stores the negative value unchanged — neither the handler nor the
schema enforces non-negativity. -/
theorem c7_counterexample :
    ∃ r ∈ (habitsUpsert dbNoLink "p" 100
      ⟨some 100, JsVal.str "-5", JsVal.num 6, JsVal.num 7⟩).habits,
      r.steps < 0 := by decide

/-- If the parsed value of an optional integer field is non-negative
whenever it parses, the `|| 0` coercion yields a non-negative value. -/
theorem jsOrInt_nonneg (o : Option ℤ) (h : ∀ n, o = some n → 0 ≤ n) :
    0 ≤ jsOrInt o 0 := by
  cases o with
  | none => exact le_refl 0
  | some n =>
      unfold jsOrInt
      by_cases hn : n = 0
      · simp [hn]
      · simp only [hn, if_false]
        exact h n rfl

/-- Rational version of `jsOrInt_nonneg`. -/
theorem jsOrRat_nonneg (o : Option ℚ) (h : ∀ q, o = some q → 0 ≤ q) :
    0 ≤ jsOrRat o 0 := by
  cases o with
  | none => exact le_refl 0
  | some q =>
      unfold jsOrRat
      by_cases hq : q = 0
      · simp [hq]
      · simp only [hq, if_false]
        exact h q rfl

/-- C7 (amended): `habits.upsert` stores 0 for missing/invalid numeric
fields and the parsed value otherwise, so stored habit values are
non-negative provided every habit row already in the store is non-negative
and the request's numeric fields parse to non-negative values when they
parse at all; the handler itself does not reject negative inputs. -/
theorem c7_amended_habit_values_nonneg_when_inputs_nonneg
    (db : DB) (c : String) (today : ℤ) (b : HabitBody)
    (hall : ∀ r ∈ db.habits, 0 ≤ r.steps ∧ 0 ≤ r.water_cups ∧ 0 ≤ r.sleep_hours)
    (hs : ∀ n, toInt b.steps = some n → 0 ≤ n)
    (hw : ∀ n, toInt b.water_cups = some n → 0 ≤ n)
    (hsl : ∀ q, toFloat b.sleep_hours = some q → 0 ≤ q) :
    ∀ r ∈ (habitsUpsert db c today b).habits,
      0 ≤ r.steps ∧ 0 ≤ r.water_cups ∧ 0 ≤ r.sleep_hours := by
  intro r hr
  cases hfind : db.habits.find?
      (fun h => h.user_id == c && h.date == b.date.getD today) with
  | some e =>
      rw [habitsUpsert_of_find_some db c today b e hfind] at hr
      rcases List.mem_map.mp hr with ⟨x, hx, hfx⟩
      by_cases hid : (x.id == e.id) = true
      · rw [if_pos hid] at hfx
        rw [← hfx]
        exact ⟨jsOrInt_nonneg _ hs, jsOrInt_nonneg _ hw, jsOrRat_nonneg _ hsl⟩
      · rw [if_neg hid] at hfx
        rw [← hfx]
        exact hall x hx
  | none =>
      rw [habitsUpsert_of_find_none db c today b hfind] at hr
      rcases List.mem_cons.mp hr with rfl | hrt
      · exact ⟨jsOrInt_nonneg _ hs, jsOrInt_nonneg _ hw, jsOrRat_nonneg _ hsl⟩
      · exact hall r hrt

/-- Witness for C7's amended theorem: non-negative inputs into the empty
store yield only non-negative rows. -/
theorem c7_amended_witness :
    ((∀ r ∈ dbNoLink.habits, 0 ≤ r.steps ∧ 0 ≤ r.water_cups ∧ 0 ≤ r.sleep_hours) ∧
     (∀ n, toInt (JsVal.str "5000") = some n → 0 ≤ n) ∧
     (∀ n, toInt (JsVal.num 6) = some n → 0 ≤ n) ∧
     (∀ q, toFloat JsVal.undef = some q → 0 ≤ q)) ∧
    (∀ r ∈ (habitsUpsert dbNoLink "p" 100
        ⟨some 100, JsVal.str "5000", JsVal.num 6, JsVal.undef⟩).habits,
      0 ≤ r.steps ∧ 0 ≤ r.water_cups ∧ 0 ≤ r.sleep_hours) := by
  refine ⟨⟨by decide, by decide, by decide, by decide⟩, ?_⟩
  exact c7_amended_habit_values_nonneg_when_inputs_nonneg dbNoLink "p" 100
    ⟨some 100, JsVal.str "5000", JsVal.num 6, JsVal.undef⟩
    (by decide) (by decide) (by decide) (by decide)

/-- C3: `link.select` invoked twice by the same patient for the same
doctor is idempotent: after the second call there is exactly one
ConsentLink row for the (patient, doctor) pair, its `patient_selected`
flag is true, and its `doctor_selected` flag has the value it had before
either call (false when the row did not yet exist). -/
theorem c3_link_select_twice_idempotent (db : DB) (c did : String)
    (b : LinkBody) (pr : Profile) (hWF : linksWF db)
    (hprof : getProfile db c = some pr) (hrole : pr.role = some "patient")
    (hb : b.doctor_id = some did) (hdid : did ≠ "") :
    ((linkSelect (linkSelect db c b) c b).doctor_patient_links.countP
        (fun l => l.patient_id == c && l.doctor_id == did) = 1) ∧
    (∀ l ∈ (linkSelect (linkSelect db c b) c b).doctor_patient_links,
        (l.patient_id == c && l.doctor_id == did) = true →
        l.patient_selected = true ∧
        l.doctor_selected =
          (Option.map (fun x => x.doctor_selected)
            (db.doctor_patient_links.find?
              (fun x => x.patient_id == c && x.doctor_id == did))).getD false) := by
  have hpw : db.doctor_patient_links.Pairwise
      (fun a b2 => a.id ≠ b2.id ∧
        ¬((a.patient_id == c && a.doctor_id == did) = true ∧
          (b2.patient_id == c && b2.doctor_id == did) = true)) := by
    refine hWF.1.imp ?_
    intro a b2 hab
    refine ⟨hab.1, ?_⟩
    rintro ⟨ha, hb2⟩
    simp only [Bool.and_eq_true, beq_iff_eq] at ha hb2
    exact hab.2 ⟨ha.1.trans hb2.1.symm, ha.2.trans hb2.2.symm⟩
  cases hfind : db.doctor_patient_links.find?
      (fun l => l.patient_id == c && l.doctor_id == did) with
  | some l0 =>
      have hmem := List.mem_of_find?_eq_some hfind
      have hkpe : (l0.patient_id == c && l0.doctor_id == did) = true := by
        simpa using List.find?_some hfind
      have h1 : linkSelect db c b = setPatientSelected db l0.id := by
        rw [linkSelect_patient_eq db c did b pr hprof hrole hb hdid,
            getOrCreateLink_of_find_some db c did l0 hfind]
      have hlinks1 : (linkSelect db c b).doctor_patient_links =
          db.doctor_patient_links.map
            (fun x => if x.id == l0.id then { x with patient_selected := true } else x) := by
        rw [h1]; rfl
      have hprof1 : getProfile (linkSelect db c b) c = some pr := by
        rw [h1]; exact hprof
      have hfind1 : (linkSelect db c b).doctor_patient_links.find?
          (fun l => l.patient_id == c && l.doctor_id == did) =
          some { l0 with patient_selected := true } := by
        rw [hlinks1, find?_map_invariant _ _ (updP_pair_invariant l0.id c did), hfind,
            Option.map_some']
        simp
      have h2 : linkSelect (linkSelect db c b) c b =
          setPatientSelected (linkSelect db c b) l0.id := by
        rw [linkSelect_patient_eq (linkSelect db c b) c did b pr hprof1 hrole hb hdid,
            getOrCreateLink_of_find_some _ c did _ hfind1]
      have hlinks2 : (linkSelect (linkSelect db c b) c b).doctor_patient_links =
          db.doctor_patient_links.map
            (fun x => if x.id == l0.id then { x with patient_selected := true } else x) := by
        rw [h2]
        show ((linkSelect db c b).doctor_patient_links.map
          (fun x => if x.id == l0.id then { x with patient_selected := true } else x)) = _
        rw [hlinks1, List.map_map]
        exact List.map_congr_left (fun x _ => updP_idem l0.id x)
      constructor
      · rw [hlinks2]
        exact countP_map_keyed_update (fun x => x.id)
          (fun l => l.patient_id == c && l.doctor_id == did)
          (fun x => { x with patient_selected := true })
          db.doctor_patient_links l0 hpw hmem hkpe hkpe
      · intro l hl hkp
        rw [hlinks2] at hl
        have hleq := eq_upd_of_kp_of_mem_keyed_update (fun x => x.id)
          (fun x => x.patient_id == c && x.doctor_id == did)
          (fun x => { x with patient_selected := true })
          db.doctor_patient_links l0 l hpw hmem hkpe hl hkp
        rw [hleq]
        exact ⟨rfl, rfl⟩
  | none =>
      have hcount0 : db.doctor_patient_links.countP
          (fun l => l.patient_id == c && l.doctor_id == did) = 0 := by
        rw [List.countP_eq_zero]
        rw [List.find?_eq_none] at hfind
        exact hfind
      have hkpn : ((⟨db.nextId, c, did, true, false⟩ : LinkRow).patient_id == c &&
          (⟨db.nextId, c, did, true, false⟩ : LinkRow).doctor_id == did) = true := by
        simp
      have htail : ∀ x ∈ db.doctor_patient_links,
          (fun y : LinkRow =>
            if y.id == db.nextId then { y with patient_selected := true } else y) x = x := by
        intro x hx
        have hlt := hWF.2 x hx
        have hne : (x.id == db.nextId) = false := by
          simp only [beq_eq_false_iff_ne, ne_eq]
          omega
        simp only [hne, Bool.false_eq_true, if_false]
      have h1 : linkSelect db c b = setPatientSelected
          { db with
            doctor_patient_links := (⟨db.nextId, c, did, false, false⟩ : LinkRow) :: db.doctor_patient_links,
            nextId := db.nextId + 1 } db.nextId := by
        rw [linkSelect_patient_eq db c did b pr hprof hrole hb hdid,
            getOrCreateLink_of_find_none db c did hfind]
      have hlinks1 : (linkSelect db c b).doctor_patient_links =
          (⟨db.nextId, c, did, true, false⟩ : LinkRow) :: db.doctor_patient_links := by
        rw [h1]
        show ((⟨db.nextId, c, did, false, false⟩ : LinkRow) :: db.doctor_patient_links).map
          (fun y => if y.id == db.nextId then { y with patient_selected := true } else y) = _
        rw [List.map_cons]
        congr 1
        · simp
        · exact (List.map_congr_left htail).trans (List.map_id _)
      have hprof1 : getProfile (linkSelect db c b) c = some pr := by
        rw [h1]; exact hprof
      have hfind1 : (linkSelect db c b).doctor_patient_links.find?
          (fun l => l.patient_id == c && l.doctor_id == did) =
          some (⟨db.nextId, c, did, true, false⟩ : LinkRow) := by
        rw [hlinks1]
        exact List.find?_cons_of_pos _ hkpn
      have h2 : linkSelect (linkSelect db c b) c b =
          setPatientSelected (linkSelect db c b) db.nextId := by
        rw [linkSelect_patient_eq (linkSelect db c b) c did b pr hprof1 hrole hb hdid,
            getOrCreateLink_of_find_some _ c did _ hfind1]
      have hlinks2 : (linkSelect (linkSelect db c b) c b).doctor_patient_links =
          (⟨db.nextId, c, did, true, false⟩ : LinkRow) :: db.doctor_patient_links := by
        rw [h2]
        show (linkSelect db c b).doctor_patient_links.map
          (fun y => if y.id == db.nextId then { y with patient_selected := true } else y) = _
        rw [hlinks1, List.map_cons]
        congr 1
        · simp
        · exact (List.map_congr_left htail).trans (List.map_id _)
      constructor
      · rw [hlinks2, List.countP_cons, hcount0, hkpn]
        simp
      · intro l hl hkp
        rw [hlinks2] at hl
        rcases List.mem_cons.mp hl with rfl | hlt
        · exact ⟨rfl, rfl⟩
        · exfalso
          rw [List.find?_eq_none] at hfind
          exact hfind l hlt hkp

/-- Witness for C3: starting from `dbNoLink` (no link row), patient `p`
selecting doctor `d` twice leaves exactly one row for the pair, with
`patient_selected` true and `doctor_selected` still false. -/
theorem c3_witness :
    (linksWF dbNoLink ∧ getProfile dbNoLink "p" = some patP ∧
     patP.role = some "patient" ∧
     (⟨some "d", none⟩ : LinkBody).doctor_id = some "d" ∧ ("d" : String) ≠ "") ∧
    (((linkSelect (linkSelect dbNoLink "p" ⟨some "d", none⟩) "p" ⟨some "d", none⟩).doctor_patient_links.countP
        (fun l => l.patient_id == "p" && l.doctor_id == "d") = 1) ∧
     (∀ l ∈ (linkSelect (linkSelect dbNoLink "p" ⟨some "d", none⟩) "p" ⟨some "d", none⟩).doctor_patient_links,
        (l.patient_id == "p" && l.doctor_id == "d") = true →
        l.patient_selected = true ∧
        l.doctor_selected =
          (Option.map (fun x => x.doctor_selected)
            (dbNoLink.doctor_patient_links.find?
              (fun x => x.patient_id == "p" && x.doctor_id == "d"))).getD false)) := by
  refine ⟨⟨by decide, by decide, by decide, by decide, by decide⟩, ?_⟩
  exact c3_link_select_twice_idempotent dbNoLink "p" "d" ⟨some "d", none⟩ patP
    (by decide) (by decide) (by decide) (by decide) (by decide)

/-- C2: no operation ever sets a ConsentLink consent flag from true back
to false: under every reachable sequence of actions, a link row keeps its
identity and pair, `patient_selected` (resp. `doctor_selected`) stays true
once true, and the mutual state (both flags true) is stable. -/
theorem c2_consent_flags_never_reset (db : DB) (as : List Action) (l : LinkRow)
    (hl : l ∈ db.doctor_patient_links) :
    ∃ l2 ∈ (run db as).doctor_patient_links,
      flagLe l l2 ∧
      (l.patient_selected = true ∧ l.doctor_selected = true →
        l2.patient_selected = true ∧ l2.doctor_selected = true) := by
  rcases run_mono db as l hl with ⟨l2, h2, hle⟩
  exact ⟨l2, h2, hle, fun hm => ⟨hle.2.2.2.1 hm.1, hle.2.2.2.2 hm.2⟩⟩

/-- Witness for C2: the one-sided link of `dbOneSided` keeps its
patient-consent flag through a doctor `link.select`, a patient
`habits.upsert` and a `profile.upsert`. -/
theorem c2_witness :
    linkPD1 ∈ dbOneSided.doctor_patient_links ∧
    ∃ l2 ∈ (run dbOneSided
        [Action.linkSel "d" ⟨none, some "p@example.com"⟩,
         Action.habitsUp "p" 100 ⟨some 100, JsVal.num 5000, JsVal.num 6, JsVal.str "7.5"⟩,
         Action.readOnly]).doctor_patient_links,
      flagLe linkPD1 l2 ∧
      (linkPD1.patient_selected = true ∧ linkPD1.doctor_selected = true →
        l2.patient_selected = true ∧ l2.doctor_selected = true) :=
  ⟨by decide, c2_consent_flags_never_reset dbOneSided
    [Action.linkSel "d" ⟨none, some "p@example.com"⟩,
     Action.habitsUp "p" 100 ⟨some 100, JsVal.num 5000, JsVal.num 6, JsVal.str "7.5"⟩,
     Action.readOnly] linkPD1 (by decide)⟩

/-- C1: for every authenticated request to `profile.get`, `habits.fetch`
or `vitals.fetch` whose target account differs from the caller, access is
permitted (no authorization error) if and only if the caller's profile
role is `doctor` and a ConsentLink row exists for (target patient, caller
doctor) with both consent flags true; when the target equals the caller,
access is permitted unconditionally, with no role or consent check. -/
theorem c1_cross_account_access_iff_mutual_consent
    (db : DB) (caller target : String) (today : ℤ) (rq sq : JsVal)
    (hu : linksPairUnique db) (ht : target ≠ "") (hc : caller ≠ "") :
    (target ≠ caller →
      ((isAuthErr (habitsFetch db caller today ⟨some target, rq⟩) = false ↔
          roleOf db caller = some "doctor" ∧ mutualLinkExists db target caller) ∧
       (isAuthErr (vitalsFetch db caller today ⟨some target, sq⟩) = false ↔
          roleOf db caller = some "doctor" ∧ mutualLinkExists db target caller) ∧
       (isAuthErr (profileGet db caller (some target)) = false ↔
          roleOf db caller = some "doctor" ∧ mutualLinkExists db target caller))) ∧
    (isAuthErr (habitsFetch db caller today ⟨some caller, rq⟩) = false ∧
     isAuthErr (vitalsFetch db caller today ⟨some caller, sq⟩) = false ∧
     isAuthErr (profileGet db caller (some caller)) = false) := by
  constructor
  · intro htc
    have hmut := canDoctorView_iff_mutual db caller target hu
    refine ⟨?_, ?_, ?_⟩
    · rw [habitsFetch_cross db caller today rq target ht htc]
      by_cases hrole : roleOf db caller = some "doctor"
      · by_cases hcan : canDoctorView db caller target = true
        · simp [hrole, hcan, isAuthErr, hmut.mp hcan]
        · simp only [hrole, ne_eq, not_true_eq_false, if_false, hcan, if_neg]
          simp [isAuthErr, hrole]
          intro hm
          exact hcan (hmut.mpr hm)
      · simp [hrole, isAuthErr]
    · rw [vitalsFetch_cross db caller today sq target ht htc]
      by_cases hrole : roleOf db caller = some "doctor"
      · by_cases hcan : canDoctorView db caller target = true
        · simp [hrole, hcan, isAuthErr, hmut.mp hcan]
        · simp only [hrole, ne_eq, not_true_eq_false, if_false, hcan, if_neg]
          simp [isAuthErr, hrole]
          intro hm
          exact hcan (hmut.mpr hm)
      · simp [hrole, isAuthErr]
    · rw [profileGet_cross db caller target ht htc]
      by_cases hrole : roleOf db caller = some "doctor"
      · by_cases hcan : canDoctorView db caller target = true
        · simp [hrole, hcan, loadProfile_not_authErr, hmut.mp hcan]
        · simp only [hrole, ne_eq, not_true_eq_false, if_false, hcan, if_neg]
          simp [isAuthErr, hrole]
          intro hm
          exact hcan (hmut.mpr hm)
      · simp [hrole, isAuthErr]
  · refine ⟨?_, ?_, ?_⟩
    · simp [habitsFetch, jsOrString, isAuthErr]
    · simp [vitalsFetch, jsOrString, isAuthErr]
    · simp [profileGet, hc, loadProfile_not_authErr]

/-- Witness for C1: in `dbMutual`, doctor `d` reading patient `p` is
permitted on all three endpoints, and self-access is always permitted. -/
theorem c1_witness :
    (linksPairUnique dbMutual ∧ ("p" : String) ≠ "" ∧ ("d" : String) ≠ "") ∧
    (("p" : String) ≠ "d" →
      ((isAuthErr (habitsFetch dbMutual "d" 100 ⟨some "p", JsVal.undef⟩) = false ↔
          roleOf dbMutual "d" = some "doctor" ∧ mutualLinkExists dbMutual "p" "d") ∧
       (isAuthErr (vitalsFetch dbMutual "d" 100 ⟨some "p", JsVal.undef⟩) = false ↔
          roleOf dbMutual "d" = some "doctor" ∧ mutualLinkExists dbMutual "p" "d") ∧
       (isAuthErr (profileGet dbMutual "d" (some "p")) = false ↔
          roleOf dbMutual "d" = some "doctor" ∧ mutualLinkExists dbMutual "p" "d"))) ∧
    (isAuthErr (habitsFetch dbMutual "d" 100 ⟨some "d", JsVal.undef⟩) = false ∧
     isAuthErr (vitalsFetch dbMutual "d" 100 ⟨some "d", JsVal.undef⟩) = false ∧
     isAuthErr (profileGet dbMutual "d" (some "d")) = false) := by
  refine ⟨⟨by decide, by decide, by decide⟩, ?_⟩
  exact c1_cross_account_access_iff_mutual_consent dbMutual "d" "p" 100
    JsVal.undef JsVal.undef (by decide) (by decide) (by decide)

/-- C4: for every cross-account request, denial is reported as an
authorization error, never as not-found, regardless of whether the target
account exists; a missing target account is reported as not-found only
after the authorization check has passed (trivially when the caller is the
target, or as a doctor with a mutual link). -/
theorem c4_denial_is_authorization_error
    (db : DB) (caller target : String) (today : ℤ) (rq sq : JsVal)
    (hu : linksPairUnique db) (ht : target ≠ "") (htc : target ≠ caller) :
    (¬(roleOf db caller = some "doctor" ∧ mutualLinkExists db target caller) →
      isAuthErr (profileGet db caller (some target)) = true ∧
      isAuthErr (habitsFetch db caller today ⟨some target, rq⟩) = true ∧
      isAuthErr (vitalsFetch db caller today ⟨some target, sq⟩) = true) ∧
    (profileGet db caller (some target) = Except.error ApiErr.notFound →
      roleOf db caller = some "doctor" ∧ mutualLinkExists db target caller) ∧
    (∀ q : FetchQuery, habitsFetch db caller today q ≠ Except.error ApiErr.notFound) ∧
    (∀ q : FetchQuery, vitalsFetch db caller today q ≠ Except.error ApiErr.notFound) ∧
    (caller ≠ "" → getProfile db caller = none →
      profileGet db caller (some caller) = Except.error ApiErr.notFound) := by
  have hmut := canDoctorView_iff_mutual db caller target hu
  refine ⟨?_, ?_, ?_, ?_, ?_⟩
  · intro hdeny
    rw [profileGet_cross db caller target ht htc,
        habitsFetch_cross db caller today rq target ht htc,
        vitalsFetch_cross db caller today sq target ht htc]
    by_cases hrole : roleOf db caller = some "doctor"
    · have hcan : canDoctorView db caller target = false := by
        by_contra hcontra
        exact hdeny ⟨hrole, hmut.mp (by simpa using hcontra)⟩
      simp [hrole, hcan, isAuthErr]
    · simp [hrole, isAuthErr]
  · intro hnf
    rw [profileGet_cross db caller target ht htc] at hnf
    by_cases hrole : roleOf db caller = some "doctor"
    · by_cases hcan : canDoctorView db caller target = true
      · exact ⟨hrole, hmut.mp hcan⟩
      · simp [hrole, hcan] at hnf
    · simp [hrole] at hnf
  · intro q
    unfold habitsFetch
    dsimp only
    split
    · split
      · simp
      · split <;> simp
    · simp
  · intro q
    unfold vitalsFetch
    dsimp only
    split
    · split
      · simp
      · split <;> simp
    · simp
  · intro hcn hnone
    have hfind : db.profiles.find? (fun p => p.id == caller) = none := hnone
    simp [profileGet, hcn, loadProfile, hfind]

/-- Counterexample to C8 as stated: with the current date at day 100 and
the default 7-day range, `habits.fetch` returns the future-dated entry of
day 107, which lies outside any range of days ending at the current date —
the query has no upper date bound. -/
theorem c8_counterexample :
    habitsFetch dbFuture "p" 100 ⟨none, JsVal.undef⟩ =
      Except.ok [⟨107, 42, 1, 8⟩] ∧ ¬((107 : ℤ) ≤ 100) := by decide

/-- C8 (amended): for every permitted `habits.fetch` / `vitals.fetch`
request, the returned list contains exactly the target account's entries
whose date is on or after (current date − rangeDays) — with no upper
bound, so future-dated entries are included — sorted in descending order
by date. -/
theorem c8_amended_fetch_range_and_order (db : DB) (c : String) (today : ℤ)
    (q : FetchQuery) :
    (∀ items, habitsFetch db c today q = Except.ok items →
      items.Sorted dateDescH ∧
      (∀ r, r ∈ items ↔ ∃ h ∈ db.habits,
        h.user_id = jsOrString q.user_id c ∧
        daysAgoISO today (jsOrInt (toInt q.rangeDays) 7) ≤ h.date ∧
        projHabit h = r)) ∧
    (∀ items, vitalsFetch db c today q = Except.ok items →
      items.Sorted dateDescV ∧
      (∀ r, r ∈ items ↔ ∃ v ∈ db.vitals,
        v.user_id = jsOrString q.user_id c ∧
        daysAgoISO today (jsOrInt (toInt q.rangeDays) 7) ≤ v.date ∧
        projVital v = r)) := by
  constructor
  · intro items h
    rw [habitsFetch_ok_items db c today q items h]
    constructor
    · exact List.sorted_insertionSort dateDescH _
    · intro r
      exact mem_habitsQuery db (jsOrString q.user_id c)
        (daysAgoISO today (jsOrInt (toInt q.rangeDays) 7)) r
  · intro items h
    rw [vitalsFetch_ok_items db c today q items h]
    constructor
    · exact List.sorted_insertionSort dateDescV _
    · intro r
      exact mem_vitalsQuery db (jsOrString q.user_id c)
        (daysAgoISO today (jsOrInt (toInt q.rangeDays) 7)) r

/-- Witness for C8's amended theorem: `patP` fetching its own habits in
`dbMutual` gets exactly the day-100 row, sorted. -/
theorem c8_amended_witness :
    (∀ items, habitsFetch dbMutual "p" 100 ⟨none, JsVal.undef⟩ = Except.ok items →
      items.Sorted dateDescH ∧
      (∀ r, r ∈ items ↔ ∃ h ∈ dbMutual.habits,
        h.user_id = jsOrString (none : Option String) "p" ∧
        daysAgoISO 100 (jsOrInt (toInt JsVal.undef) 7) ≤ h.date ∧
        projHabit h = r)) ∧
    (∀ items, vitalsFetch dbMutual "p" 100 ⟨none, JsVal.undef⟩ = Except.ok items →
      items.Sorted dateDescV ∧
      (∀ r, r ∈ items ↔ ∃ v ∈ dbMutual.vitals,
        v.user_id = jsOrString (none : Option String) "p" ∧
        daysAgoISO 100 (jsOrInt (toInt JsVal.undef) 7) ≤ v.date ∧
        projVital v = r)) :=
  c8_amended_fetch_range_and_order dbMutual "p" 100 ⟨none, JsVal.undef⟩

/-- C9: when `vitals.upsert` updates an existing (account, date) row, the
surviving row for that key has all five vital fields equal to the parsed
request values — a field omitted from (or invalid in) the request becomes
null — and no vital value of the prior row survives; only the row id and
the (account, date) key persist. -/
theorem c9_vitals_update_replaces_all_fields (db : DB) (c : String)
    (today : ℤ) (b : VitalBody) (e : VitalRow) (hWF : vitalsWF db)
    (he : e ∈ db.vitals) (heu : e.user_id = c)
    (hed : e.date = b.date.getD today) :
    ((vitalsUpsert db c today b).vitals.countP
        (fun v => v.user_id == c && v.date == b.date.getD today) = 1) ∧
    (∀ r ∈ (vitalsUpsert db c today b).vitals,
        (r.user_id == c && r.date == b.date.getD today) = true →
        r.id = e.id ∧ r.user_id = c ∧ r.date = b.date.getD today ∧
        r.blood_glucose = toInt b.blood_glucose ∧
        r.blood_pressure_sys = toInt b.blood_pressure_sys ∧
        r.blood_pressure_dia = toInt b.blood_pressure_dia ∧
        r.heart_rate = toInt b.heart_rate ∧
        r.body_temperature = toFloat b.body_temperature) := by
  have hkpe : (e.user_id == c && e.date == b.date.getD today) = true := by
    simp [heu, hed]
  have hpw : db.vitals.Pairwise
      (fun a b2 => a.id ≠ b2.id ∧
        ¬((a.user_id == c && a.date == b.date.getD today) = true ∧
          (b2.user_id == c && b2.date == b.date.getD today) = true)) := by
    refine hWF.1.imp ?_
    intro a b2 hab
    refine ⟨hab.1, ?_⟩
    rintro ⟨ha, hb2⟩
    simp only [Bool.and_eq_true, beq_iff_eq] at ha hb2
    exact hab.2 ⟨ha.1.trans hb2.1.symm, ha.2.trans hb2.2.symm⟩
  have hsym : Symmetric (fun a b2 : VitalRow =>
      a.id ≠ b2.id ∧
      ¬((a.user_id == c && a.date == b.date.getD today) = true ∧
        (b2.user_id == c && b2.date == b.date.getD today) = true)) := by
    intro a b2 hab
    exact ⟨fun hcontra => hab.1 hcontra.symm, fun hcontra => hab.2 ⟨hcontra.2, hcontra.1⟩⟩
  have hfind : db.vitals.find?
      (fun v => v.user_id == c && v.date == b.date.getD today) = some e := by
    cases hf : db.vitals.find?
        (fun v => v.user_id == c && v.date == b.date.getD today) with
    | none =>
        exfalso
        rw [List.find?_eq_none] at hf
        exact hf e he hkpe
    | some e2 =>
        have hkpe2 : (e2.user_id == c && e2.date == b.date.getD today) = true := by
          simpa using List.find?_some hf
        have hmem2 := List.mem_of_find?_eq_some hf
        have he2 : e2 = e := by
          by_contra hne
          exact (hpw.forall hsym hmem2 he hne).2 ⟨hkpe2, hkpe⟩
        rw [he2]
  have h1 := vitalsUpsert_of_find_some db c today b e hfind
  constructor
  · rw [h1]
    exact countP_map_keyed_update (fun x : VitalRow => x.id)
      (fun v : VitalRow => v.user_id == c && v.date == b.date.getD today)
      (fun y : VitalRow =>
        { y with user_id := c, date := b.date.getD today,
                 blood_glucose := toInt b.blood_glucose,
                 blood_pressure_sys := toInt b.blood_pressure_sys,
                 blood_pressure_dia := toInt b.blood_pressure_dia,
                 heart_rate := toInt b.heart_rate,
                 body_temperature := toFloat b.body_temperature })
      db.vitals e hpw he hkpe (by simp)
  · intro r hr hkp
    rw [h1] at hr
    have hleq := eq_upd_of_kp_of_mem_keyed_update (fun x : VitalRow => x.id)
      (fun v : VitalRow => v.user_id == c && v.date == b.date.getD today)
      (fun y : VitalRow =>
        { y with user_id := c, date := b.date.getD today,
                 blood_glucose := toInt b.blood_glucose,
                 blood_pressure_sys := toInt b.blood_pressure_sys,
                 blood_pressure_dia := toInt b.blood_pressure_dia,
                 heart_rate := toInt b.heart_rate,
                 body_temperature := toFloat b.body_temperature })
      db.vitals e r hpw he hkpe hr hkp
    rw [hleq]
    exact ⟨rfl, rfl, rfl, rfl, rfl, rfl, rfl, rfl⟩

/-- Witness for C9: updating the fully-populated day-100 vital row of
`dbVit` with an empty body nulls every vital field. -/
theorem c9_witness :
    (vitalsWF dbVit ∧ vitP ∈ dbVit.vitals ∧ vitP.user_id = "p" ∧
     vitP.date = (⟨some 100, JsVal.undef, JsVal.undef, JsVal.undef, JsVal.undef,
       JsVal.undef⟩ : VitalBody).date.getD 100) ∧
    (((vitalsUpsert dbVit "p" 100
        ⟨some 100, JsVal.undef, JsVal.undef, JsVal.undef, JsVal.undef, JsVal.undef⟩).vitals.countP
        (fun v => v.user_id == "p" &&
          v.date == (⟨some 100, JsVal.undef, JsVal.undef, JsVal.undef, JsVal.undef,
            JsVal.undef⟩ : VitalBody).date.getD 100) = 1) ∧
     (∀ r ∈ (vitalsUpsert dbVit "p" 100
        ⟨some 100, JsVal.undef, JsVal.undef, JsVal.undef, JsVal.undef, JsVal.undef⟩).vitals,
        (r.user_id == "p" &&
          r.date == (⟨some 100, JsVal.undef, JsVal.undef, JsVal.undef, JsVal.undef,
            JsVal.undef⟩ : VitalBody).date.getD 100) = true →
        r.id = vitP.id ∧ r.user_id = "p" ∧
        r.date = (⟨some 100, JsVal.undef, JsVal.undef, JsVal.undef, JsVal.undef,
          JsVal.undef⟩ : VitalBody).date.getD 100 ∧
        r.blood_glucose = toInt JsVal.undef ∧
        r.blood_pressure_sys = toInt JsVal.undef ∧
        r.blood_pressure_dia = toInt JsVal.undef ∧
        r.heart_rate = toInt JsVal.undef ∧
        r.body_temperature = toFloat JsVal.undef)) := by
  refine ⟨⟨by decide, by decide, by decide, by decide⟩, ?_⟩
  exact c9_vitals_update_replaces_all_fields dbVit "p" 100
    ⟨some 100, JsVal.undef, JsVal.undef, JsVal.undef, JsVal.undef, JsVal.undef⟩
    vitP (by decide) (by decide) (by decide) (by decide)

/-- C10: in `habits.fetch` and `vitals.fetch`, an omitted target
`user_id` defaults to the caller's own account — the request is treated
as self-access and always succeeds with no authorization check — and a
missing, non-numeric, or zero `rangeDays` defaults to 7 days. -/
theorem c10_fetch_parameter_defaults (db : DB) (c : String) (today : ℤ)
    (rq : JsVal) :
    (habitsFetch db c today ⟨none, rq⟩ =
      Except.ok (habitsQuery db c (daysAgoISO today (jsOrInt (toInt rq) 7)))) ∧
    (vitalsFetch db c today ⟨none, rq⟩ =
      Except.ok (vitalsQuery db c (daysAgoISO today (jsOrInt (toInt rq) 7)))) ∧
    (toInt rq = none ∨ toInt rq = some 0 →
      habitsFetch db c today ⟨none, rq⟩ =
        Except.ok (habitsQuery db c (daysAgoISO today 7)) ∧
      vitalsFetch db c today ⟨none, rq⟩ =
        Except.ok (vitalsQuery db c (daysAgoISO today 7))) := by
  have hdef : toInt rq = none ∨ toInt rq = some 0 → jsOrInt (toInt rq) 7 = 7 := by
    intro h
    rcases h with h | h <;> rw [h] <;> rfl
  refine ⟨?_, ?_, ?_⟩
  · simp [habitsFetch, jsOrString]
  · simp [vitalsFetch, jsOrString]
  · intro h
    have h7 := hdef h
    constructor
    · simp [habitsFetch, jsOrString, h7]
    · simp [vitalsFetch, jsOrString, h7]

/-- Witness for C10: non-numeric `rangeDays` together with an omitted
target returns the caller's own last-7-days query. -/
theorem c10_witness :
    (toInt (JsVal.str "soon") = none ∨ toInt (JsVal.str "soon") = some 0) ∧
    ((habitsFetch dbMutual "p" 100 ⟨none, JsVal.str "soon"⟩ =
        Except.ok (habitsQuery dbMutual "p" (daysAgoISO 100 7))) ∧
     (vitalsFetch dbMutual "p" 100 ⟨none, JsVal.str "soon"⟩ =
        Except.ok (vitalsQuery dbMutual "p" (daysAgoISO 100 7)))) :=
  ⟨by decide, (c10_fetch_parameter_defaults dbMutual "p" 100 (JsVal.str "soon")).2.2 (by decide)⟩

/-- Witness for C4: in `dbOneSided` (consent only from the patient),
doctor `d` targeting `p` is denied with a 403-class error on all three
endpoints, and fetches never produce not-found. -/
theorem c4_witness :
    (linksPairUnique dbOneSided ∧ ("p" : String) ≠ "" ∧ ("p" : String) ≠ "d") ∧
    ((¬(roleOf dbOneSided "d" = some "doctor" ∧ mutualLinkExists dbOneSided "p" "d") →
      isAuthErr (profileGet dbOneSided "d" (some "p")) = true ∧
      isAuthErr (habitsFetch dbOneSided "d" 100 ⟨some "p", JsVal.undef⟩) = true ∧
      isAuthErr (vitalsFetch dbOneSided "d" 100 ⟨some "p", JsVal.undef⟩) = true) ∧
    (profileGet dbOneSided "d" (some "p") = Except.error ApiErr.notFound →
      roleOf dbOneSided "d" = some "doctor" ∧ mutualLinkExists dbOneSided "p" "d") ∧
    (∀ q : FetchQuery, habitsFetch dbOneSided "d" 100 q ≠ Except.error ApiErr.notFound) ∧
    (∀ q : FetchQuery, vitalsFetch dbOneSided "d" 100 q ≠ Except.error ApiErr.notFound) ∧
    (("d" : String) ≠ "" → getProfile dbOneSided "d" = none →
      profileGet dbOneSided "d" (some "d") = Except.error ApiErr.notFound)) := by
  refine ⟨⟨by decide, by decide, by decide⟩, ?_⟩
  exact c4_denial_is_authorization_error dbOneSided "d" "p" 100
    JsVal.undef JsVal.undef (by decide) (by decide) (by decide)

end HealthApp
